import Mathlib

/-!
Shallow embedding of the Traffic-controler simulation engine
(`traffic/enums.py`, `car.py`, `road.py`, `traffic_light.py`,
`intersection.py`, `simulation.py`).

Positions are `(row, col)` pairs of integers, as in the Python source.
Cars are mutable objects in Python; here the engine's car list is the
registry of car data, and roads / intersections hold car identifiers.
Car identifiers are assumed distinct where Python's object identity
matters; theorems carry multiplicity hypotheses where this is relevant.
The `random.shuffle` in `tick` is modelled by passing the processing
order explicitly (an injected permutation).
-/

set_option maxRecDepth 4000

abbrev Pos := Int × Int

inductive Direction where
  | north | south | east | west
deriving DecidableEq, Repr

inductive Movement where
  | straight | left | right
deriving DecidableEq, Repr

inductive TrafficLightState where
  | red | yellow | green | greenArrow
deriving DecidableEq, Repr

/-- Total map from the four cardinal directions, modelling a Python dict
that holds all four keys (as every constructed controller and
intersection does). -/
structure DirMap (α : Type) where
  north : α
  south : α
  east : α
  west : α
deriving DecidableEq, Repr

def DirMap.get (m : DirMap α) : Direction → α
  | .north => m.north
  | .south => m.south
  | .east => m.east
  | .west => m.west

def DirMap.set (m : DirMap α) (d : Direction) (v : α) : DirMap α :=
  match d with
  | .north => { m with north := v }
  | .south => { m with south := v }
  | .east => { m with east := v }
  | .west => { m with west := v }

def DirMap.const (v : α) : DirMap α := ⟨v, v, v, v⟩

def DirMap.map (f : α → β) (m : DirMap α) : DirMap β :=
  ⟨f m.north, f m.south, f m.east, f m.west⟩

/-- Car: `car.py`, class `Car`. -/
structure Car where
  carId : String
  position : Pos
  direction : Direction
  intendedMovement : Movement
  lane : Nat
  maxSpeed : Nat
  waitTime : Nat
deriving DecidableEq, Repr

/-- Car.get_next_position. -/
def Car.getNextPosition (c : Car) (distance : Int := 1) : Pos :=
  match c.direction with
  | .north => (c.position.1 - distance, c.position.2)
  | .south => (c.position.1 + distance, c.position.2)
  | .east => (c.position.1, c.position.2 + distance)
  | .west => (c.position.1, c.position.2 - distance)

/-- Car.move_to: sets the position and resets the wait counter. -/
def Car.moveTo (c : Car) (p : Pos) : Car :=
  { c with position := p, waitTime := 0 }

/-- Car.increment_wait_time. -/
def Car.incrementWaitTime (c : Car) : Car :=
  { c with waitTime := c.waitTime + 1 }

/-- Car.turn. -/
def Car.turn (c : Car) (d : Direction) : Car :=
  { c with direction := d }

/-- TrafficLight: `traffic_light.py`, class `TrafficLight`. -/
structure TrafficLight where
  lightId : String
  direction : Direction
  state : TrafficLightState
  timer : Nat
deriving DecidableEq, Repr

/-- TrafficLight.set_state (the Python default duration is 0). -/
def TrafficLight.setState (l : TrafficLight) (st : TrafficLightState)
    (duration : Nat := 0) : TrafficLight :=
  { l with state := st, timer := duration }

/-- TrafficLight.update: decrement the timer if positive. -/
def TrafficLight.update (l : TrafficLight) : TrafficLight :=
  if l.timer > 0 then { l with timer := l.timer - 1 } else l

/-- TrafficLight.can_go_straight. -/
def TrafficLight.canGoStraight (l : TrafficLight) : Bool :=
  l.state == .green || l.state == .greenArrow

/-- TrafficLight.can_turn_left. -/
def TrafficLight.canTurnLeft (l : TrafficLight) : Bool :=
  l.state == .greenArrow

/-- TrafficLight.can_turn_right. -/
def TrafficLight.canTurnRight (l : TrafficLight) : Bool :=
  l.state != .red

/-- TrafficLightController: one light per direction plus the automatic
cycle state.  `default_cycle` and `cycle_duration` are instance
attributes in the source, set in `__init__`; they are kept as fields. -/
structure TrafficLightController where
  intersectionId : String
  lights : DirMap TrafficLight
  cyclePosition : Nat
  cycleTimer : Nat
  defaultCycle : List (Direction × Direction)
  cycleDuration : Nat
deriving DecidableEq, Repr

def Direction.str : Direction → String
  | .north => "north"
  | .south => "south"
  | .east => "east"
  | .west => "west"

/-- TrafficLightController.add_light builds a light with id
`{intersection_id}_{direction}` and initial state RED. -/
def mkLight (iid : String) (d : Direction) : TrafficLight :=
  { lightId := iid ++ "_" ++ d.str, direction := d, state := .red, timer := 0 }

/-- TrafficLightController.__init__, followed by adding all four lights
(as Intersection.__init__ does). -/
def mkController (iid : String) : TrafficLightController :=
  { intersectionId := iid
    lights := ⟨mkLight iid .north, mkLight iid .south, mkLight iid .east, mkLight iid .west⟩
    cyclePosition := 0
    cycleTimer := 0
    defaultCycle := [(.north, .south), (.east, .west)]
    cycleDuration := 30 }

/-- TrafficLightController.set_light_state (every direction is present
in a constructed controller, so the `in self.lights` guard holds). -/
def TrafficLightController.setLightState (tc : TrafficLightController)
    (d : Direction) (st : TrafficLightState) : TrafficLightController :=
  { tc with lights := tc.lights.set d ((tc.lights.get d).setState st) }

/-- TrafficLightController.update_automatic_cycle. -/
def TrafficLightController.updateAutomaticCycle (tc : TrafficLightController) :
    TrafficLightController :=
  let t := tc.cycleTimer + 1
  let (t, pos) :=
    if t ≥ tc.cycleDuration then (0, (tc.cyclePosition + 1) % tc.defaultCycle.length)
    else (t, tc.cyclePosition)
  let lights := tc.lights.map (fun l => l.setState .red)
  let lights :=
    match tc.defaultCycle.get? pos with
    | some (d1, d2) =>
        ((lights.set d1 ((lights.get d1).setState .green)).set d2
          (((lights.set d1 ((lights.get d1).setState .green)).get d2).setState .green))
    | none => lights
  { tc with cycleTimer := t, cyclePosition := pos, lights := lights }

/-- TrafficLightController.update: update all lights. -/
def TrafficLightController.update (tc : TrafficLightController) : TrafficLightController :=
  { tc with lights := tc.lights.map TrafficLight.update }

/-- Lane: `road.py`, class `Lane`.  `max_cars` is set to the number of
covered cells at construction. -/
structure Lane where
  laneId : String
  direction : Direction
  positions : List Pos
  cars : List String
  maxCars : Nat
deriving DecidableEq, Repr

/-- Registry lookup: the engine's car list holds the car data. -/
def findCarData (registry : List Car) (cid : String) : Option Car :=
  registry.find? (fun c => c.carId == cid)

/-- Lane.get_car_at_position. -/
def Lane.getCarAtPosition (registry : List Car) (l : Lane) (p : Pos) : Option Car :=
  l.cars.findSome? (fun cid =>
    match findCarData registry cid with
    | some c => if c.position = p then some c else none
    | none => none)

/-- Lane.is_position_free. -/
def Lane.isPositionFree (registry : List Car) (l : Lane) (p : Pos) : Bool :=
  decide (p ∈ l.positions) && (l.getCarAtPosition registry p).isNone

/-- Lane.add_car: succeeds when the lane has spare capacity and the
car's current position is one of the lane's cells.  The target cell
being occupied is NOT checked. -/
def Lane.addCar (l : Lane) (c : Car) : Lane × Bool :=
  if l.cars.length < l.maxCars && decide (c.position ∈ l.positions) then
    ({ l with cars := l.cars ++ [c.carId] }, true)
  else (l, false)

/-- Lane.remove_car. -/
def Lane.removeCar (l : Lane) (cid : String) : Lane × Bool :=
  if cid ∈ l.cars then ({ l with cars := l.cars.erase cid }, true)
  else (l, false)

/-- Road: `road.py`, class `Road`.  Lane number n is index n of
`lanes`. -/
structure Road where
  roadId : String
  startPos : Pos
  endPos : Pos
  direction : Direction
  numLanes : Nat
  lanes : List Lane
deriving DecidableEq, Repr

/-- Integer range a..b inclusive, the `range(a, b+1)` loops of the
source. -/
def intRange (a b : Int) : List Int :=
  (List.range (b + 1 - a).toNat).map (fun i => a + (i : Int))

/-- Road._get_road_positions. -/
def roadPositions (startPos endPos : Pos) (dir : Direction) (numLanes : Nat) : List Pos :=
  if dir = .north ∨ dir = .south then
    (intRange (min startPos.1 endPos.1) (max startPos.1 endPos.1)).flatMap
      (fun row => (List.range numLanes).map (fun off => (row, startPos.2 + (off : Int))))
  else
    (intRange (min startPos.2 endPos.2) (max startPos.2 endPos.2)).flatMap
      (fun col => (List.range numLanes).map (fun off => (startPos.1 + (off : Int), col)))

/-- Road._get_lane_positions. -/
def lanePositions (startPos : Pos) (dir : Direction) (laneNum : Nat)
    (allPositions : List Pos) : List Pos :=
  if dir = .north ∨ dir = .south then
    allPositions.filter (fun p => p.2 = startPos.2 + (laneNum : Int))
  else
    allPositions.filter (fun p => p.1 = startPos.1 + (laneNum : Int))

/-- Road.__init__ together with Road._create_lanes. -/
def mkRoad (rid : String) (startPos endPos : Pos) (dir : Direction)
    (numLanes : Nat := 2) : Road :=
  let allPositions := roadPositions startPos endPos dir numLanes
  { roadId := rid
    startPos := startPos
    endPos := endPos
    direction := dir
    numLanes := numLanes
    lanes := (List.range numLanes).map (fun n =>
      let ps := lanePositions startPos dir n allPositions
      { laneId := rid ++ "_lane_" ++ toString n
        direction := dir
        positions := ps
        cars := []
        maxCars := ps.length }) }

/-- Road.add_car: delegates to the lane and records the lane index on
the car (the caller applies the lane-index update to the car data). -/
def Road.addCar (r : Road) (c : Car) (laneNum : Nat) : Road × Bool :=
  match r.lanes.get? laneNum with
  | some lane =>
      let (lane', ok) := lane.addCar c
      (if ok then { r with lanes := r.lanes.set laneNum lane' } else r, ok)
  | none => (r, false)

/-- Road.remove_car: removes the car from the first lane that holds it. -/
def lanesRemoveFirst : List Lane → String → List Lane × Bool
  | [], _ => ([], false)
  | l :: ls, cid =>
      if cid ∈ l.cars then ({ l with cars := l.cars.erase cid } :: ls, true)
      else
        let (ls', b) := lanesRemoveFirst ls cid
        (l :: ls', b)

def Road.removeCar (r : Road) (cid : String) : Road × Bool :=
  let (lanes', b) := lanesRemoveFirst r.lanes cid
  ({ r with lanes := lanes' }, b)

/-- Road.get_all_cars. -/
def Road.getAllCars (r : Road) : List String :=
  r.lanes.foldr (fun l acc => l.cars ++ acc) []

/-- Road.get_car_at_position. -/
def Road.getCarAtPosition (registry : List Car) (r : Road) (p : Pos) : Option Car :=
  r.lanes.findSome? (fun l => l.getCarAtPosition registry p)

/-- Road.is_position_free with lane_num = None: the first lane whose
cells contain the position decides; a position on no lane gives False. -/
def Road.isPositionFree (registry : List Car) (r : Road) (p : Pos) : Bool :=
  match r.lanes.find? (fun l => decide (p ∈ l.positions)) with
  | some l => l.isPositionFree registry p
  | none => false

/-- Intersection: `intersection.py`, class `Intersection`.  Connected
roads are recorded by road id and resolved in the engine's road table
(the source stores the same road objects in both places). -/
structure Intersection where
  intersectionId : String
  centerPosition : Pos
  size : Nat
  controller : TrafficLightController
  connectedRoads : DirMap (Option String)
  intersectionPositions : List Pos
  carsInIntersection : List String
deriving DecidableEq, Repr

/-- Intersection._calculate_intersection_positions. -/
def interPositions (center : Pos) (size : Nat) : List Pos :=
  let halfSize : Int := (size : Int) / 2
  (intRange (center.1 - halfSize) (center.1 + halfSize)).flatMap
    (fun row => (intRange (center.2 - halfSize) (center.2 + halfSize)).map
      (fun col => (row, col)))

/-- Intersection.__init__ (all four lights are created RED). -/
def mkIntersection (iid : String) (center : Pos) (size : Nat := 3) : Intersection :=
  { intersectionId := iid
    centerPosition := center
    size := size
    controller := mkController iid
    connectedRoads := DirMap.const none
    intersectionPositions := interPositions center size
    carsInIntersection := [] }

/-- Intersection.connect_road. -/
def Intersection.connectRoad (i : Intersection) (rid : String) (d : Direction) :
    Intersection :=
  { i with connectedRoads := i.connectedRoads.set d (some rid) }

/-- Intersection._is_intersection_position_free: only cars currently in
this intersection are considered. -/
def Intersection.isIntersectionPositionFree (registry : List Car) (i : Intersection)
    (p : Pos) : Bool :=
  if p ∉ i.intersectionPositions then false
  else i.carsInIntersection.all (fun cid =>
    match findCarData registry cid with
    | some c => c.position != p
    | none => true)

/-- Intersection.can_car_enter. -/
def Intersection.canCarEnter (registry : List Car) (i : Intersection) (c : Car)
    (fromDirection : Direction) : Bool :=
  let light := i.controller.lights.get fromDirection
  let lightOk :=
    match c.intendedMovement with
    | .straight => light.canGoStraight
    | .left => light.canTurnLeft
    | .right => light.canTurnRight
  if !lightOk then false
  else i.isIntersectionPositionFree registry (c.getNextPosition 1)

/-- Intersection.add_car_to_intersection. -/
def Intersection.addCarToIntersection (i : Intersection) (c : Car) : Intersection × Bool :=
  if c.position ∈ i.intersectionPositions ∧ c.carId ∉ i.carsInIntersection then
    ({ i with carsInIntersection := i.carsInIntersection ++ [c.carId] }, true)
  else (i, false)

/-- Intersection.remove_car_from_intersection. -/
def Intersection.removeCarFromIntersection (i : Intersection) (cid : String) :
    Intersection :=
  if cid ∈ i.carsInIntersection then
    { i with carsInIntersection := i.carsInIntersection.erase cid }
  else i

/-- Intersection.get_exit_direction: the fixed turn table. -/
def Intersection.getExitDirection (c : Car) (entryDirection : Direction) : Direction :=
  match c.intendedMovement with
  | .straight => entryDirection
  | .right =>
      match entryDirection with
      | .north => .east
      | .east => .south
      | .south => .west
      | .west => .north
  | .left =>
      match entryDirection with
      | .north => .west
      | .west => .south
      | .south => .east
      | .east => .north

/-- Intersection.process_car_in_intersection: the reached-exit test
against the intersection's center along the exit axis. -/
def Intersection.processCarInIntersection (i : Intersection) (c : Car)
    (entryDirection : Direction) : Option Direction :=
  let exitDirection := Intersection.getExitDirection c entryDirection
  let centerRow := i.centerPosition.1
  let centerCol := i.centerPosition.2
  match exitDirection with
  | .north => if c.position.1 ≤ centerRow - 1 then some .north else none
  | .south => if c.position.1 ≥ centerRow + 1 then some .south else none
  | .east => if c.position.2 ≥ centerCol + 1 then some .east else none
  | .west => if c.position.2 ≤ centerCol - 1 then some .west else none

/-- Intersection.update. -/
def Intersection.update (i : Intersection) : Intersection :=
  { i with controller := i.controller.update }

/-- TrafficSimulation: `simulation.py`.  Road and intersection tables
are kept as lists in insertion order (lookup by identifier takes the
first match, as the identifiers are unique in constructed networks). -/
structure SimState where
  gridSize : Int × Int
  roads : List Road
  intersections : List Intersection
  cars : List Car
  tickCount : Nat
  maxCarSpeed : Nat
  carEntryDirections : List (String × Direction)
deriving DecidableEq, Repr

/-- TrafficSimulation.__init__. -/
def simNew (gridSize : Int × Int := (20, 20)) : SimState :=
  { gridSize := gridSize
    roads := []
    intersections := []
    cars := []
    tickCount := 0
    maxCarSpeed := 2
    carEntryDirections := [] }

def lookupRoad (s : SimState) (rid : String) : Option Road :=
  s.roads.find? (fun r => r.roadId == rid)

def lookupIntersection (s : SimState) (iid : String) : Option Intersection :=
  s.intersections.find? (fun i => i.intersectionId == iid)

/-- Replace the table entry with the given road id (dict assignment in
the source). -/
def updateRoad (s : SimState) (rid : String) (f : Road → Road) : SimState :=
  { s with roads := s.roads.map (fun r => if r.roadId == rid then f r else r) }

def updateIntersection (s : SimState) (iid : String) (f : Intersection → Intersection) :
    SimState :=
  { s with intersections :=
      s.intersections.map (fun i => if i.intersectionId == iid then f i else i) }

/-- Mutation of the car object with the given identity. -/
def updateCar (s : SimState) (cid : String) (f : Car → Car) : SimState :=
  { s with cars := s.cars.map (fun c => if c.carId == cid then f c else c) }

def entryLookup (l : List (String × Direction)) (cid : String) : Option Direction :=
  (l.find? (fun p => p.1 == cid)).map (fun p => p.2)

/-- Dict assignment `car_entry_directions[car_id] = d`. -/
def entrySet (l : List (String × Direction)) (cid : String) (d : Direction) :
    List (String × Direction) :=
  (cid, d) :: l.filter (fun p => p.1 != cid)

/-- Dict deletion guarded by key membership. -/
def entryErase (l : List (String × Direction)) (cid : String) :
    List (String × Direction) :=
  l.filter (fun p => p.1 != cid)

/-- TrafficSimulation.add_road. -/
def simAddRoad (s : SimState) (r : Road) : SimState :=
  { s with roads := s.roads ++ [r] }

/-- TrafficSimulation.add_intersection. -/
def simAddIntersection (s : SimState) (i : Intersection) : SimState :=
  { s with intersections := s.intersections ++ [i] }

/-- TrafficSimulation.add_car: on success the car joins the lane and the
engine's car list, with its lane index recorded. -/
def simAddCar (s : SimState) (c : Car) (rid : String) (laneNum : Nat := 0) :
    SimState × Bool :=
  match lookupRoad s rid with
  | some road =>
      let (road', ok) := road.addCar c laneNum
      if ok then
        ({ s with
            roads := s.roads.map (fun r => if r.roadId == rid then road' else r)
            cars := s.cars ++ [{ c with lane := laneNum }] }, true)
      else (s, false)
  | none => (s, false)

/-- TrafficSimulation.remove_car. -/
def simRemoveCar (s : SimState) (cid : String) : SimState :=
  if (s.cars.map Car.carId).contains cid then
    { s with
        cars := s.cars.eraseP (fun c => c.carId == cid)
        roads := s.roads.map (fun r => (r.removeCar cid).1)
        intersections := s.intersections.map
          (fun i => i.removeCarFromIntersection cid)
        carEntryDirections := entryErase s.carEntryDirections cid }
  else s

/-- TrafficSimulation.get_car_at_position: all roads, then all
intersections. -/
def simGetCarAtPosition (s : SimState) (p : Pos) : Option Car :=
  match s.roads.findSome? (fun r => r.getCarAtPosition s.cars p) with
  | some c => some c
  | none =>
      s.intersections.findSome? (fun i =>
        i.carsInIntersection.findSome? (fun cid =>
          match findCarData s.cars cid with
          | some c => if c.position = p then some c else none
          | none => none))

/-- TrafficSimulation.is_position_free. -/
def simIsPositionFree (s : SimState) (p : Pos) : Bool :=
  (simGetCarAtPosition s p).isNone

/-- TrafficSimulation.is_valid_position. -/
def simIsValidPosition (s : SimState) (p : Pos) : Bool :=
  0 ≤ p.1 && p.1 < s.gridSize.2 && 0 ≤ p.2 && p.2 < s.gridSize.1

/-- TrafficSimulation.find_car_location: first matching road, else first
matching intersection, else neither. -/
def findCarLocation (s : SimState) (cid : String) : Option String × Option String :=
  match s.roads.find? (fun r => cid ∈ r.getAllCars) with
  | some r => (some r.roadId, none)
  | none =>
      match s.intersections.find? (fun i => cid ∈ i.carsInIntersection) with
      | some i => (none, some i.intersectionId)
      | none => (none, none)

/-- TrafficSimulation._get_intersection_at_position. -/
def getIntersectionAtPosition (s : SimState) (p : Pos) : Option Intersection :=
  s.intersections.find? (fun i => decide (p ∈ i.intersectionPositions))

/-- TrafficSimulation._move_car_on_road.  The source computes
`distance = min(max_car_speed, 1) = 1`, so the movement loop runs for
the single step `dist = 1`; a `break` on an out-of-bounds target falls
through to the trailing wait increment. -/
def moveCarOnRoad (s : SimState) (c : Car) (rid : String) : SimState × Bool :=
  let nextPos := c.getNextPosition 1
  if !(simIsValidPosition s nextPos) then
    (updateCar s c.carId Car.incrementWaitTime, false)
  else
    match getIntersectionAtPosition s nextPos with
    | some inter =>
        if inter.canCarEnter s.cars c c.direction then
          let cMoved := c.moveTo nextPos
          let s1 := updateRoad s rid (fun r => (r.removeCar c.carId).1)
          let s2 := updateCar s1 c.carId (fun cc => cc.moveTo nextPos)
          let s3 := updateIntersection s2 inter.intersectionId
            (fun i => (i.addCarToIntersection cMoved).1)
          let s4 := { s3 with
            carEntryDirections := entrySet s3.carEntryDirections c.carId c.direction }
          (s4, true)
        else (updateCar s c.carId Car.incrementWaitTime, false)
    | none =>
        if !(simIsPositionFree s nextPos) then
          (updateCar s c.carId Car.incrementWaitTime, false)
        else (updateCar s c.carId (fun cc => cc.moveTo nextPos), true)

/-- Exit-road `add_car` for a car already registered in the engine:
`exit_road.add_car(car, car.lane)` in the source (whose boolean result
the caller discards). -/
def simRoadAddExisting (s : SimState) (rid : String) (cid : String) (laneNum : Nat) :
    SimState :=
  match lookupRoad s rid, findCarData s.cars cid with
  | some road, some c =>
      let (road', ok) := road.addCar c laneNum
      if ok then
        updateCar
          { s with roads := s.roads.map (fun r => if r.roadId == rid then road' else r) }
          cid (fun cc => { cc with lane := laneNum })
      else s
  | _, _ => s

/-- Shared tail of `_move_car_in_intersection`: advance one cell inside
the region if that cell is free, else wait. -/
def interContinueMove (s : SimState) (c : Car) (inter : Intersection) :
    SimState × Bool :=
  let nextPos := c.getNextPosition 1
  if decide (nextPos ∈ inter.intersectionPositions) &&
      inter.isIntersectionPositionFree s.cars nextPos then
    (updateCar s c.carId (fun cc => cc.moveTo nextPos), true)
  else (updateCar s c.carId Car.incrementWaitTime, false)

/-- TrafficSimulation._move_car_in_intersection. -/
def moveCarInIntersection (s : SimState) (c : Car) (iid : String) : SimState × Bool :=
  match lookupIntersection s iid with
  | none => (s, false)
  | some inter =>
      let entryDirection := (entryLookup s.carEntryDirections c.carId).getD c.direction
      match inter.processCarInIntersection c entryDirection with
      | some exitDirection =>
          match inter.connectedRoads.get exitDirection with
          | some exitRid =>
              match lookupRoad s exitRid with
              | none => (s, false)
              | some exitRoad =>
                  let nextPos := c.getNextPosition 1
                  if exitRoad.isPositionFree s.cars nextPos then
                    let s1 := updateIntersection s iid
                      (fun i => i.removeCarFromIntersection c.carId)
                    let s2 := updateCar s1 c.carId
                      (fun cc => (cc.turn exitDirection).moveTo nextPos)
                    let s3 := simRoadAddExisting s2 exitRid c.carId c.lane
                    let s4 := { s3 with
                      carEntryDirections := entryErase s3.carEntryDirections c.carId }
                    (s4, true)
                  else (updateCar s c.carId Car.incrementWaitTime, false)
          | none => interContinueMove s c inter
      | none => interContinueMove s c inter

/-- TrafficSimulation.move_car: dispatch on the car's container. -/
def moveCar (s : SimState) (cid : String) : SimState × Bool :=
  match findCarData s.cars cid with
  | none => (s, false)
  | some c =>
      match findCarLocation s cid with
      | (some rid, _) => moveCarOnRoad s c rid
      | (none, some iid) => moveCarInIntersection s c iid
      | (none, none) => (s, false)

/-- Signal phase of a tick: advance the clock, run every intersection's
automatic cycle and light-timer update. -/
def tickLights (s : SimState) : SimState :=
  { s with
      tickCount := s.tickCount + 1
      intersections := s.intersections.map (fun i =>
        ({ i with controller := i.controller.updateAutomaticCycle }).update) }

/-- Movement phase of a tick: one move attempt per listed car. -/
def processCars (s : SimState) (order : List String) : SimState :=
  order.foldl (fun st cid => (moveCar st cid).1) s

/-- TrafficSimulation.tick with the shuffled car order injected:
`order` stands for the permutation `random.shuffle` produces. -/
def tickP (s : SimState) (order : List String) : SimState :=
  processCars (tickLights s) order

/-- TrafficSimulation.set_traffic_light. -/
def simSetTrafficLight (s : SimState) (iid : String) (d : Direction)
    (st : TrafficLightState) : SimState × Bool :=
  match lookupIntersection s iid with
  | some _ =>
      (updateIntersection s iid
        (fun i => { i with controller := i.controller.setLightState d st }), true)
  | none => (s, false)

/-- TrafficSimulation.create_simple_four_way_intersection. -/
def createSimpleFourWayIntersection (s : SimState) (center : Pos := (10, 10)) :
    SimState :=
  let iid := "main_intersection"
  let inter := mkIntersection iid center 3
  let centerRow := center.1
  let centerCol := center.2
  let northRoad := mkRoad "north_road" (centerRow - 6, centerCol) (centerRow - 2, centerCol) .south 2
  let southRoad := mkRoad "south_road" (centerRow + 2, centerCol) (centerRow + 6, centerCol) .north 2
  let eastRoad := mkRoad "east_road" (centerRow, centerCol + 2) (centerRow, centerCol + 6) .west 2
  let westRoad := mkRoad "west_road" (centerRow, centerCol - 6) (centerRow, centerCol - 2) .east 2
  let s := simAddRoad s northRoad
  let s := simAddRoad s southRoad
  let s := simAddRoad s eastRoad
  let s := simAddRoad s westRoad
  let inter := inter.connectRoad "north_road" .north
  let inter := inter.connectRoad "south_road" .south
  let inter := inter.connectRoad "east_road" .east
  let inter := inter.connectRoad "west_road" .west
  simAddIntersection s inter

/-! Concrete runs of the engine on the reference four-way network.
These drive the counterexample theorems below; every step is an
external operation of the engine (`add_car`, `tick`,
`set_traffic_light`), so the states reached are reachable states of the
source program. -/

/-- Car.__init__ with the source's defaults for lane, speed and wait. -/
def mkCar (cid : String) (p : Pos) (d : Direction) (m : Movement := .straight) : Car :=
  { carId := cid, position := p, direction := d, intendedMovement := m,
    lane := 0, maxSpeed := 2, waitTime := 0 }

/-- Empty 20x20 grid with the reference four-way intersection. -/
def fourWayStart : SimState :=
  createSimpleFourWayIntersection (simNew (20, 20)) (10, 10)

/-- Five westbound cars fill lane 1 of the north road (every add
targets a free cell), and one northbound car starts on the south road. -/
def orphanRunStart : SimState :=
  [ (mkCar "w1" (4, 11) .west, "north_road", 1),
    (mkCar "w2" (5, 11) .west, "north_road", 1),
    (mkCar "w3" (6, 11) .west, "north_road", 1),
    (mkCar "w4" (7, 11) .west, "north_road", 1),
    (mkCar "w5" (8, 11) .west, "north_road", 1),
    (mkCar "x" (12, 11) .north, "south_road", 1)
  ].foldl (fun st c => (simAddCar st c.1 c.2.1 c.2.2).1) fourWayStart

def orphanRunOrder : List String := ["w1", "w2", "w3", "w4", "w5", "x"]

/-- Four ticks: the westbound cars drift off their lane's cells while
staying registered in lane 1; car x crosses the intersection northward
and exits at (8, 11), where the exit road's `add_car` fails on the full
lane-1 car list and the failure is ignored. -/
def orphanRunEnd : SimState :=
  tickP (tickP (tickP (tickP orphanRunStart orphanRunOrder) orphanRunOrder)
    orphanRunOrder) orphanRunOrder

/-- One more car, added at the (free) cell (8, 10), heading east toward
the orphaned car's cell. -/
def collisionRunMid : SimState :=
  (simAddCar orphanRunEnd (mkCar "y" (8, 10) .east) "north_road" 0).1

/-- A fifth tick: car y moves onto (8, 11), which the global occupancy
check reports free because the orphaned car x is in no container. -/
def collisionRunEnd : SimState :=
  tickP collisionRunMid (orphanRunOrder ++ ["y"])

/-! Theorems -/

/-- C1.  The claim states that in every state reachable by the external
operations from a constructed topology, no two distinct registered cars
occupy the same grid cell.  The code violates it: after the five-tick
run above (all of whose `add_car` calls place cars on free cells), the
distinct registered cars x and y both occupy cell (8, 11).  Lane.add_car
never checks that the target cell is unoccupied, and the
intersection-exit path consults only the lane that owns the target cell
while ignoring the failure of the exit road's `add_car`, so the claimed
invariant — asserted by the code's own SYSTEM_OVERVIEW ("Collision
avoidance") — does not hold. -/
theorem c1_occupancy_violated :
    (collisionRunEnd.cars.map Car.carId).contains "x" = true ∧
    (collisionRunEnd.cars.map Car.carId).contains "y" = true ∧
    (findCarData collisionRunEnd.cars "x").map Car.position = some (8, 11) ∧
    (findCarData collisionRunEnd.cars "y").map Car.position = some (8, 11) := by
  refine ⟨rfl, rfl, rfl, rfl⟩

/-- C2.  The claim states that every car in the engine's list is in
exactly one container.  After the four-tick run, car x is registered in
`cars` but `find_car_location` yields `(None, None)`: the exit path had
removed it from the intersection, moved it, and discarded the failing
result of the exit road's `add_car`.  The source itself marks this
state "this shouldn't happen" (`move_car`), so the claim is right and
the code is wrong. -/
theorem c2_exclusive_containment_violated :
    (orphanRunEnd.cars.map Car.carId).contains "x" = true ∧
    findCarLocation orphanRunEnd "x" = (none, none) := by
  refine ⟨rfl, rfl⟩

/-- C6 counterexample.  The claim demands that a car whose move attempt
fails has its wait counter incremented by one.  The orphaned car x
(registered, but in no container after the exit bug) fails its attempt
with an unchanged wait counter: before the tick it is 0, the attempt
returns false, and it is still 0 instead of 1. -/
theorem c6_counterexample_orphan_wait :
    (findCarData orphanRunEnd.cars "x").map Car.waitTime = some 0 ∧
    (moveCar (tickLights orphanRunEnd) "x").2 = false ∧
    (findCarData (moveCar (tickLights orphanRunEnd) "x").1.cars "x").map Car.waitTime
      = some 0 := by
  refine ⟨rfl, rfl, rfl⟩

/-- C7 counterexample.  The claim asserts a car whose computed exit
direction is perpendicular to its heading never satisfies the
reached-exit comparison.  A left-turning car that entered heading SOUTH
at column 11 of the reference intersection (center (10, 10)) satisfies
the EAST comparison (col ≥ 11) already at its entry cell:
`process_car_in_intersection` returns EAST, not None. -/
theorem c7_counterexample_left_entry_satisfies_exit :
    Intersection.processCarInIntersection (mkIntersection "main_intersection" (10, 10) 3)
      (mkCar "l" (9, 11) .south .left) .south = some .east := by
  rfl

/-- C4 counterexample.  The claim reads the cycle as phases of a fixed
duration of 30 update calls starting with (NORTH, SOUTH); then the 30th
call would still lie in the first (NORTH, SOUTH) phase.  In the code the
timer is incremented before comparison, so the first phase lasts only 29
calls: after the 30th call NORTH and SOUTH are RED and EAST and WEST
GREEN. -/
theorem c4_counterexample_thirtieth_update :
    let tc := (fun c => TrafficLightController.updateAutomaticCycle c)^[30]
      (mkController "main_intersection")
    ((tc.lights.get .north).state = .red ∧ (tc.lights.get .south).state = .red ∧
      (tc.lights.get .east).state = .green ∧ (tc.lights.get .west).state = .green) := by
  refine ⟨rfl, rfl, rfl, rfl⟩

/-- Clockwise rotation of the compass, as the spec words it
(N→E→S→W→N). -/
def rotateClockwise : Direction → Direction
  | .north => .east
  | .east => .south
  | .south => .west
  | .west => .north

/-- Counter-clockwise rotation of the compass (N→W→S→E→N). -/
def rotateCounterClockwise : Direction → Direction
  | .north => .west
  | .west => .south
  | .south => .east
  | .east => .north

/-- C5.  Turn-table correctness: `get_exit_direction` keeps the entry
direction for STRAIGHT, rotates it clockwise for RIGHT and
counter-clockwise for LEFT, for every car and every entry direction. -/
theorem c5_turn_table (c : Car) (e : Direction) :
    Intersection.getExitDirection c e =
      (match c.intendedMovement with
        | .straight => e
        | .right => rotateClockwise e
        | .left => rotateCounterClockwise e) := by
  rcases c with ⟨_, _, _, m, _, _, _⟩
  cases m <;> cases e <;> rfl

/-- External operations on one intersection's light controller: the
per-tick automatic cycle call, or an override through
`set_light_state` (reached from `set_traffic_light`). -/
inductive ControllerOp where
  | update
  | override (d : Direction) (st : TrafficLightState)

def applyControllerOp (tc : TrafficLightController) : ControllerOp → TrafficLightController
  | .update => tc.updateAutomaticCycle
  | .override d st => tc.setLightState d st

def applyControllerOps (tc : TrafficLightController) (ops : List ControllerOp) :
    TrafficLightController :=
  ops.foldl applyControllerOp tc

def countUpdates (ops : List ControllerOp) : Nat :=
  (ops.filter (fun o => match o with | .update => true | _ => false)).length

/-- Phase pair that is green after the k-th automatic-cycle call. -/
def activePair (k : Nat) : Direction × Direction :=
  if (k / 30) % 2 = 0 then (.north, .south) else (.east, .west)

lemma applyControllerOps_cycleState (ops : List ControllerOp) :
    ∀ (tc : TrafficLightController) (j : Nat),
      tc.defaultCycle = [(.north, .south), (.east, .west)] →
      tc.cycleDuration = 30 →
      tc.cycleTimer = j % 30 →
      tc.cyclePosition = (j / 30) % 2 →
      (applyControllerOps tc ops).defaultCycle = [(.north, .south), (.east, .west)] ∧
      (applyControllerOps tc ops).cycleDuration = 30 ∧
      (applyControllerOps tc ops).cycleTimer = (j + countUpdates ops) % 30 ∧
      (applyControllerOps tc ops).cyclePosition = ((j + countUpdates ops) / 30) % 2 := by
  induction ops with
  | nil =>
      intro tc j h1 h2 h3 h4
      simpa [applyControllerOps, countUpdates] using ⟨h1, h2, h3, h4⟩
  | cons op ops ih =>
      intro tc j h1 h2 h3 h4
      cases op with
      | override d st =>
          have step : applyControllerOps tc (.override d st :: ops)
              = applyControllerOps (tc.setLightState d st) ops := rfl
          have h := ih (tc.setLightState d st) j h1 h2 h3 h4
          simpa [step, countUpdates, List.filter] using h
      | update =>
          have step : applyControllerOps tc (.update :: ops)
              = applyControllerOps tc.updateAutomaticCycle ops := rfl
          have hcyc : tc.updateAutomaticCycle.defaultCycle
              = [(.north, .south), (.east, .west)] := by
            simp [TrafficLightController.updateAutomaticCycle, h1]
          have hdur : tc.updateAutomaticCycle.cycleDuration = 30 := by
            simp [TrafficLightController.updateAutomaticCycle, h2]
          have htimer : tc.updateAutomaticCycle.cycleTimer = (j + 1) % 30 := by
            simp only [TrafficLightController.updateAutomaticCycle, h1, h2, h3, h4]
            by_cases hge : j % 30 + 1 ≥ 30
            · simp only [if_pos hge]
              omega
            · simp only [if_neg hge]
              omega
          have hpos : tc.updateAutomaticCycle.cyclePosition = ((j + 1) / 30) % 2 := by
            simp only [TrafficLightController.updateAutomaticCycle, h1, h2, h3, h4]
            by_cases hge : j % 30 + 1 ≥ 30
            · simp only [if_pos hge, List.length]
              omega
            · simp only [if_neg hge]
              omega
          have h := ih tc.updateAutomaticCycle (j + 1) hcyc hdur htimer hpos
          have hcount : countUpdates (ControllerOp.update :: ops) = countUpdates ops + 1 := by
            simp [countUpdates, List.filter]
          rw [step]
          refine ⟨h.1, h.2.1, ?_, ?_⟩
          · rw [h.2.2.1, hcount]; ring_nf
          · rw [h.2.2.2, hcount]; ring_nf

/-- C4 (amended).  After the k-th automatic-cycle call on a freshly
constructed controller, regardless of interleaved overrides, the two
directions of `default_cycle[(k / 30) % 2]` are GREEN and the other two
RED: the first (NORTH, SOUTH) phase lasts 29 calls and every later
phase 30, and any override is overwritten by the next cycle call. -/
theorem c4_automatic_cycle (iid : String) (pre : List ControllerOp) (d : Direction) :
    ((applyControllerOps (mkController iid) (pre ++ [.update])).lights.get d).state
      = (if d = (activePair (countUpdates pre + 1)).1 ∨
            d = (activePair (countUpdates pre + 1)).2
          then .green else .red) := by
  have hbase := applyControllerOps_cycleState pre (mkController iid) 0 rfl rfl rfl rfl
  have hsplit : applyControllerOps (mkController iid) (pre ++ [.update])
      = (applyControllerOps (mkController iid) pre).updateAutomaticCycle := by
    simp [applyControllerOps, List.foldl_append, applyControllerOp]
  set tc := applyControllerOps (mkController iid) pre with htc
  obtain ⟨hcyc, hdur, htimer, hpos⟩ := hbase
  rw [hsplit]
  simp only [Nat.zero_add] at htimer hpos
  set k := countUpdates pre with hk
  have hposval : ((k + 1) / 30) % 2 = 0 ∨ ((k + 1) / 30) % 2 = 1 := Nat.mod_two_eq_zero_or_one _
  have hnewpos : tc.updateAutomaticCycle.cyclePosition = ((k + 1) / 30) % 2 := by
    simp only [TrafficLightController.updateAutomaticCycle, hcyc, hdur, htimer, hpos]
    by_cases hge : k % 30 + 1 ≥ 30
    · simp only [if_pos hge, List.length]
      omega
    · simp only [if_neg hge]
      omega
  have hlights : tc.updateAutomaticCycle.lights =
      (let base := tc.lights.map (fun l => l.setState .red)
       match tc.defaultCycle.get? tc.updateAutomaticCycle.cyclePosition with
       | some (d1, d2) =>
           ((base.set d1 ((base.get d1).setState .green)).set d2
             (((base.set d1 ((base.get d1).setState .green)).get d2).setState .green))
       | none => base) := by
    simp only [TrafficLightController.updateAutomaticCycle]
  rcases hposval with hp | hp
  · rw [hlights, hnewpos, hp, hcyc]
    simp only [activePair, hp, if_pos rfl, List.get?]
    cases d <;>
      simp [DirMap.get, DirMap.set, DirMap.map, TrafficLight.setState]
  · rw [hlights, hnewpos, hp, hcyc]
    simp only [activePair, hp]
    norm_num
    cases d <;>
      simp [DirMap.get, DirMap.set, DirMap.map, TrafficLight.setState]

/-! Component lemmas: the state-update helpers touch only the fields
their Python counterparts mutate. -/

@[simp] lemma updateCar_intersections (s : SimState) (cid : String) (f : Car → Car) :
    (updateCar s cid f).intersections = s.intersections := rfl

@[simp] lemma updateCar_roads (s : SimState) (cid : String) (f : Car → Car) :
    (updateCar s cid f).roads = s.roads := rfl

@[simp] lemma updateCar_entries (s : SimState) (cid : String) (f : Car → Car) :
    (updateCar s cid f).carEntryDirections = s.carEntryDirections := rfl

@[simp] lemma updateRoad_intersections (s : SimState) (rid : String) (f : Road → Road) :
    (updateRoad s rid f).intersections = s.intersections := rfl

@[simp] lemma updateRoad_cars (s : SimState) (rid : String) (f : Road → Road) :
    (updateRoad s rid f).cars = s.cars := rfl

@[simp] lemma updateIntersection_cars (s : SimState) (iid : String)
    (f : Intersection → Intersection) : (updateIntersection s iid f).cars = s.cars := rfl

@[simp] lemma updateIntersection_roads (s : SimState) (iid : String)
    (f : Intersection → Intersection) : (updateIntersection s iid f).roads = s.roads := rfl

lemma updateIntersection_intersections (s : SimState) (iid : String)
    (f : Intersection → Intersection) :
    (updateIntersection s iid f).intersections
      = s.intersections.map (fun i => if i.intersectionId == iid then f i else i) := rfl

lemma simRoadAddExisting_intersections (s : SimState) (rid cid : String) (ln : Nat) :
    (simRoadAddExisting s rid cid ln).intersections = s.intersections := by
  unfold simRoadAddExisting
  cases lookupRoad s rid with
  | none => rfl
  | some road =>
      cases findCarData s.cars cid with
      | none => rfl
      | some c =>
          rcases h : road.addCar c ln with ⟨road', ok⟩
          cases ok <;> simp [h]

/-- find? commutes with a map that preserves the predicate. -/
lemma find?_map_pres {α : Type} (g : α → α) (p : α → Bool) (hp : ∀ a, p (g a) = p a) :
    ∀ l : List α, (l.map g).find? p = (l.find? p).map g := by
  intro l
  induction l with
  | nil => rfl
  | cons a l ih =>
      by_cases h : p a = true
      · simp [List.find?_cons, hp, h]
      · have h' : p a = false := by simpa using h
        simp [List.find?_cons, hp, h', ih]

lemma removeCarFromIntersection_id (i : Intersection) (cid : String) :
    (i.removeCarFromIntersection cid).intersectionId = i.intersectionId := by
  unfold Intersection.removeCarFromIntersection
  split <;> rfl

lemma addCarToIntersection_id (i : Intersection) (c : Car) :
    (i.addCarToIntersection c).1.intersectionId = i.intersectionId := by
  unfold Intersection.addCarToIntersection
  split <;> rfl

lemma mem_removeCarFromIntersection (i : Intersection) (cid cid' : String)
    (h : cid' ∈ (i.removeCarFromIntersection cid).carsInIntersection) :
    cid' ∈ i.carsInIntersection := by
  unfold Intersection.removeCarFromIntersection at h
  split at h
  · exact List.mem_of_mem_erase h
  · exact h

lemma mem_addCarToIntersection (i : Intersection) (c : Car) (cid' : String)
    (h : cid' ∈ (i.addCarToIntersection c).1.carsInIntersection) :
    cid' ∈ i.carsInIntersection ∨ cid' = c.carId := by
  unfold Intersection.addCarToIntersection at h
  split at h
  · simp at h
    rcases h with h | h
    · exact Or.inl h
    · exact Or.inr h
  · exact Or.inl h

lemma lookupIntersection_updateCar (s : SimState) (cid : String) (f : Car → Car)
    (iid : String) : lookupIntersection (updateCar s cid f) iid = lookupIntersection s iid :=
  rfl

/-- Signal permission exactly as the claim words it. -/
def signalPermits (st : TrafficLightState) (m : Movement) : Prop :=
  match m with
  | .straight => st = .green ∨ st = .greenArrow
  | .left => st = .greenArrow
  | .right => st ≠ .red

lemma canCarEnter_signalPermits (registry : List Car) (i : Intersection) (c : Car)
    (d : Direction) (h : i.canCarEnter registry c d = true) :
    signalPermits ((i.controller.lights.get d).state) c.intendedMovement := by
  unfold Intersection.canCarEnter at h
  cases hm : c.intendedMovement <;> rw [hm] at h <;>
    cases hst : (i.controller.lights.get d).state <;>
    simp [signalPermits, TrafficLight.canGoStraight, TrafficLight.canTurnLeft,
      TrafficLight.canTurnRight, hst] at h ⊢

lemma lookupIntersection_congr (s1 s2 : SimState)
    (h : s1.intersections = s2.intersections) (iid : String) :
    lookupIntersection s1 iid = lookupIntersection s2 iid := by
  unfold lookupIntersection
  rw [h]

/-- C3.  Signal-gated entry: if a single move attempt puts a car into
an intersection's active set that did not hold it before, then the
signal facing the car's entry direction permitted the car's intended
movement: GREEN_ARROW for LEFT, GREEN or GREEN_ARROW for STRAIGHT, any
state other than RED for RIGHT.  Signals are fixed during the movement
phase of a tick, so this covers every entry that happens during a
tick. -/
theorem c3_signal_gated_entry
    (s : SimState) (cid : String) (c : Car) (iid : String) (i i' : Intersection)
    (hc : findCarData s.cars cid = some c)
    (hnd : (s.intersections.map Intersection.intersectionId).Nodup)
    (hi : lookupIntersection s iid = some i)
    (hi' : lookupIntersection (moveCar s cid).1 iid = some i')
    (hnotin : cid ∉ i.carsInIntersection)
    (hin : cid ∈ i'.carsInIntersection) :
    signalPermits ((i.controller.lights.get c.direction).state) c.intendedMovement := by
  have hcid : c.carId = cid := by
    have hc2 := hc
    unfold findCarData at hc2
    have hbeq := List.find?_some hc2
    exact eq_of_beq hbeq
  have contra : ∀ s' : SimState, s'.intersections = s.intersections →
      lookupIntersection s' iid = some i' → False := by
    intro s' hs' hl
    rw [lookupIntersection_congr s' s hs', hi] at hl
    cases hl
    exact hnotin hin
  rcases hloc : findCarLocation s cid with ⟨o1, o2⟩
  cases o1 with
  | some rid =>
      simp only [moveCar, hc, hloc, moveCarOnRoad] at hi'
      cases hv : simIsValidPosition s (c.getNextPosition 1) with
      | false =>
          simp only [hv, Bool.not_false, if_true] at hi'
          exact absurd hi' (fun h => contra _ rfl h)
      | true =>
          simp only [hv, Bool.not_true, Bool.false_eq_true, if_false] at hi'
          cases hI : getIntersectionAtPosition s (c.getNextPosition 1) with
          | none =>
              simp only [hI] at hi'
              cases hfree : simIsPositionFree s (c.getNextPosition 1) with
              | false =>
                  simp only [hfree, Bool.not_false, if_true] at hi'
                  exact absurd hi' (fun h => contra _ rfl h)
              | true =>
                  simp only [hfree, Bool.not_true, Bool.false_eq_true, if_false] at hi'
                  exact absurd hi' (fun h => contra _ rfl h)
          | some inter =>
              simp only [hI] at hi'
              cases hE : inter.canCarEnter s.cars c c.direction with
              | false =>
                  simp only [hE, Bool.false_eq_true, if_false] at hi'
                  exact absurd hi' (fun h => contra _ rfl h)
              | true =>
                  simp only [hE, if_true] at hi'
                  have hstep : ∀ s' : SimState,
                      s'.intersections = s.intersections.map
                        (fun j => if j.intersectionId == inter.intersectionId
                          then (j.addCarToIntersection (c.moveTo (c.getNextPosition 1))).1
                          else j) →
                      lookupIntersection s' iid = some i' →
                      signalPermits ((i.controller.lights.get c.direction).state)
                        c.intendedMovement := by
                    intro s' hs' hl
                    have hmap : ∀ j : Intersection,
                        ((fun j => if j.intersectionId == inter.intersectionId
                            then (j.addCarToIntersection (c.moveTo (c.getNextPosition 1))).1
                            else j) j).intersectionId = j.intersectionId := by
                      intro j
                      by_cases hj : j.intersectionId == inter.intersectionId
                      · simp [hj, addCarToIntersection_id]
                      · simp [hj]
                    have hcomm : lookupIntersection s' iid
                        = (lookupIntersection s iid).map
                          (fun j => if j.intersectionId == inter.intersectionId
                            then (j.addCarToIntersection (c.moveTo (c.getNextPosition 1))).1
                            else j) := by
                      unfold lookupIntersection
                      rw [hs']
                      exact find?_map_pres _ _
                        (fun a => by rw [hmap a]) s.intersections
                    rw [hcomm, hi] at hl
                    simp only [Option.map_some'] at hl
                    cases hl
                    by_cases hid : i.intersectionId == inter.intersectionId
                    · rw [if_pos hid] at hin
                      rcases mem_addCarToIntersection _ _ _ hin with hmem | _
                      · exact absurd hmem hnotin
                      · have hieq : i = inter := by
                          refine List.inj_on_of_nodup_map hnd ?_ ?_ (eq_of_beq hid)
                          · exact List.mem_of_find?_eq_some hi
                          · exact List.mem_of_find?_eq_some hI
                        subst hieq
                        exact canCarEnter_signalPermits s.cars i c c.direction hE
                    · rw [if_neg hid] at hin
                      exact absurd hin hnotin
                  exact hstep _ (by
                    simp only [updateIntersection_intersections, updateCar_intersections,
                      updateRoad_intersections]) hi'
  | none =>
      cases o2 with
      | none =>
          simp only [moveCar, hc, hloc] at hi'
          exact absurd hi' (fun h => contra _ rfl h)
      | some iid2 =>
          simp only [moveCar, hc, hloc, moveCarInIntersection] at hi'
          cases hI2 : lookupIntersection s iid2 with
          | none =>
              simp only [hI2] at hi'
              exact absurd hi' (fun h => contra _ rfl h)
          | some inter2 =>
              simp only [hI2] at hi'
              cases hP : inter2.processCarInIntersection c
                  ((entryLookup s.carEntryDirections c.carId).getD c.direction) with
              | none =>
                  simp only [hP, interContinueMove] at hi'
                  cases hmv : (decide (c.getNextPosition 1 ∈ inter2.intersectionPositions) &&
                      inter2.isIntersectionPositionFree s.cars (c.getNextPosition 1)) with
                  | false =>
                      simp only [hmv, Bool.false_eq_true, if_false] at hi'
                      exact absurd hi' (fun h => contra _ rfl h)
                  | true =>
                      simp only [hmv, if_true] at hi'
                      exact absurd hi' (fun h => contra _ rfl h)
              | some exitDir =>
                  simp only [hP] at hi'
                  cases hCR : inter2.connectedRoads.get exitDir with
                  | none =>
                      simp only [hCR, interContinueMove] at hi'
                      cases hmv : (decide (c.getNextPosition 1 ∈ inter2.intersectionPositions) &&
                          inter2.isIntersectionPositionFree s.cars (c.getNextPosition 1)) with
                      | false =>
                          simp only [hmv, Bool.false_eq_true, if_false] at hi'
                          exact absurd hi' (fun h => contra _ rfl h)
                      | true =>
                          simp only [hmv, if_true] at hi'
                          exact absurd hi' (fun h => contra _ rfl h)
                  | some exitRid =>
                      simp only [hCR] at hi'
                      cases hLR : lookupRoad s exitRid with
                      | none =>
                          simp only [hLR] at hi'
                          exact absurd hi' (fun h => contra _ rfl h)
                      | some exitRoad =>
                          simp only [hLR] at hi'
                          cases hfree : exitRoad.isPositionFree s.cars (c.getNextPosition 1) with
                          | false =>
                              simp only [hfree, Bool.false_eq_true, if_false] at hi'
                              exact absurd hi' (fun h => contra _ rfl h)
                          | true =>
                              simp only [hfree, if_true] at hi'
                              have hstep2 : ∀ s' : SimState,
                                  s'.intersections = s.intersections.map
                                    (fun j => if j.intersectionId == iid2
                                      then j.removeCarFromIntersection c.carId
                                      else j) →
                                  lookupIntersection s' iid = some i' → False := by
                                intro s' hs' hl
                                have hmap : ∀ j : Intersection,
                                    ((fun j => if j.intersectionId == iid2
                                        then j.removeCarFromIntersection c.carId
                                        else j) j).intersectionId = j.intersectionId := by
                                  intro j
                                  by_cases hj : j.intersectionId == iid2
                                  · simp [hj, removeCarFromIntersection_id]
                                  · simp [hj]
                                have hcomm : lookupIntersection s' iid
                                    = (lookupIntersection s iid).map
                                      (fun j => if j.intersectionId == iid2
                                        then j.removeCarFromIntersection c.carId
                                        else j) := by
                                  unfold lookupIntersection
                                  rw [hs']
                                  exact find?_map_pres _ _
                                    (fun a => by rw [hmap a]) s.intersections
                                rw [hcomm, hi] at hl
                                simp only [Option.map_some'] at hl
                                cases hl
                                by_cases hid : i.intersectionId == iid2
                                · rw [if_pos hid] at hin
                                  exact absurd (mem_removeCarFromIntersection _ _ _ hin) hnotin
                                · rw [if_neg hid] at hin
                                  exact absurd hin hnotin
                              exact absurd hi' (fun h => hstep2 _ (by
                                simp only [simRoadAddExisting_intersections,
                                  updateCar_intersections,
                                  updateIntersection_intersections]) h)

/-- Concrete entry scenario for the signal-gate theorem: a northbound
car on the south road, NORTH signal overridden to GREEN. -/
def c3State : SimState :=
  (simSetTrafficLight
    (simAddCar fourWayStart (mkCar "x" (12, 11) .north) "south_road" 1).1
    "main_intersection" .north .green).1

def dummyInter : Intersection := mkIntersection "dummy" (0, 0) 3

def c3PreI : Intersection :=
  (lookupIntersection c3State "main_intersection").getD dummyInter

def c3PostI : Intersection :=
  (lookupIntersection (moveCar c3State "x").1 "main_intersection").getD dummyInter

def c3CarX : Car := (findCarData c3State.cars "x").getD (mkCar "dummy" (0, 0) .north)

/-- Witness for the signal-gate theorem: in the concrete scenario the
car enters the intersection, every hypothesis holds, and the conclusion
is delivered by the theorem itself. -/
theorem c3_signal_gated_entry_witness :
    (findCarData c3State.cars "x" = some c3CarX ∧
      (c3State.intersections.map Intersection.intersectionId).Nodup ∧
      lookupIntersection c3State "main_intersection" = some c3PreI ∧
      lookupIntersection (moveCar c3State "x").1 "main_intersection" = some c3PostI ∧
      "x" ∉ c3PreI.carsInIntersection ∧
      "x" ∈ c3PostI.carsInIntersection) ∧
    signalPermits ((c3PreI.controller.lights.get c3CarX.direction).state)
      c3CarX.intendedMovement :=
  ⟨⟨rfl, by decide, rfl, rfl, by decide, by decide⟩,
    c3_signal_gated_entry c3State "x" c3CarX "main_intersection" c3PreI c3PostI
      rfl (by decide) rfl rfl (by decide) (by decide)⟩

lemma findCarData_updateCar_self (s : SimState) (cid : String) (f : Car → Car)
    (hf : ∀ x, (f x).carId = x.carId) (c : Car)
    (hc : findCarData s.cars cid = some c) :
    findCarData (updateCar s cid f).cars cid = some (f c) := by
  have hbeq : (c.carId == cid) = true := by
    have hc2 := hc
    unfold findCarData at hc2
    have h2 := List.find?_some hc2
    exact h2
  have hp : ∀ a : Car,
      (((fun x => if x.carId == cid then f x else x) a).carId == cid)
        = (a.carId == cid) := by
    intro a
    by_cases ha : (a.carId == cid) = true
    · simp [ha, hf]
    · simp [ha]
  unfold findCarData updateCar at *
  simp only []
  rw [find?_map_pres (fun x => if x.carId == cid then f x else x)
    (fun x => x.carId == cid) hp s.cars]
  rw [hc]
  simp [hbeq]
  intro h
  exact absurd (eq_of_beq hbeq) h

/-- Advancing one step along the heading leaves the reached-exit
comparison of a perpendicular exit direction unchanged. -/
lemma process_perp_invariant (i : Intersection) (c : Car)
    (hturn : c.intendedMovement = .left ∨ c.intendedMovement = .right)
    (hnone : i.processCarInIntersection c c.direction = none) :
    i.processCarInIntersection (c.moveTo (c.getNextPosition 1))
      (c.moveTo (c.getNextPosition 1)).direction = none := by
  have hdir : (c.moveTo (c.getNextPosition 1)).direction = c.direction := rfl
  rw [hdir]
  rcases hturn with hm | hm <;> cases hd : c.direction <;>
    simp only [Intersection.processCarInIntersection, Intersection.getExitDirection,
      Car.moveTo, Car.getNextPosition, hm, hd] at hnone ⊢ <;>
    simpa using hnone

/-- C7 (amended).  A car inside an intersection whose intended movement
is LEFT or RIGHT, whose heading equals its recorded entry direction,
and whose reached-exit comparison is currently false: its move attempt
keeps it in the intersection with heading, intent and recorded entry
direction unchanged, advances it at most one cell along its heading,
and leaves the reached-exit comparison false — so the comparison's
truth is fixed at entry and such a car never exits. -/
theorem c7_turning_car_never_exits
    (s : SimState) (iid : String) (i : Intersection) (cid : String) (c : Car)
    (hi : lookupIntersection s iid = some i)
    (hc : findCarData s.cars cid = some c)
    (hentry : (entryLookup s.carEntryDirections c.carId).getD c.direction = c.direction)
    (hturn : c.intendedMovement = .left ∨ c.intendedMovement = .right)
    (hnoexit : i.processCarInIntersection c c.direction = none) :
    ∃ c', findCarData (moveCarInIntersection s c iid).1.cars cid = some c' ∧
      (moveCarInIntersection s c iid).1.intersections = s.intersections ∧
      (moveCarInIntersection s c iid).1.carEntryDirections = s.carEntryDirections ∧
      c'.direction = c.direction ∧
      c'.intendedMovement = c.intendedMovement ∧
      (c'.position = c.position ∨ c'.position = c.getNextPosition 1) ∧
      i.processCarInIntersection c' c'.direction = none := by
  have hcid : c.carId = cid := by
    have hc2 := hc
    unfold findCarData at hc2
    have h2 := List.find?_some hc2
    exact eq_of_beq h2
  simp only [moveCarInIntersection, hi, hentry, hnoexit, interContinueMove]
  cases hmv : (decide (c.getNextPosition 1 ∈ i.intersectionPositions) &&
      i.isIntersectionPositionFree s.cars (c.getNextPosition 1)) with
  | true =>
      simp only [hmv, if_true]
      refine ⟨c.moveTo (c.getNextPosition 1), ?_, rfl, rfl, rfl, rfl, Or.inr rfl, ?_⟩
      · rw [← hcid]
        exact findCarData_updateCar_self s c.carId
          (fun cc => cc.moveTo (c.getNextPosition 1)) (fun x => rfl) c
          (by rw [hcid]; exact hc)
      · exact process_perp_invariant i c hturn hnoexit
  | false =>
      simp only [hmv, Bool.false_eq_true, if_false]
      refine ⟨c.incrementWaitTime, ?_, rfl, rfl, rfl, rfl, Or.inl rfl, ?_⟩
      · rw [← hcid]
        exact findCarData_updateCar_self s c.carId Car.incrementWaitTime
          (fun x => rfl) c (by rw [hcid]; exact hc)
      · exact hnoexit

/-- Concrete scenario for the turning-car theorem: a right-turning
southbound car that has just entered the reference intersection at
(9, 10); its WEST exit comparison (col ≤ 9) is false and stays false. -/
def c7State : SimState :=
  (moveCar
    (simSetTrafficLight
      (simAddCar fourWayStart (mkCar "l" (8, 10) .south .right) "north_road" 0).1
      "main_intersection" .south .green).1
    "l").1

def c7I : Intersection := (lookupIntersection c7State "main_intersection").getD dummyInter

def c7Car : Car := (findCarData c7State.cars "l").getD (mkCar "dummy" (0, 0) .north)

/-- Witness for the turning-car theorem at the concrete state above. -/
theorem c7_turning_car_never_exits_witness :
    (lookupIntersection c7State "main_intersection" = some c7I ∧
      findCarData c7State.cars "l" = some c7Car ∧
      (entryLookup c7State.carEntryDirections c7Car.carId).getD c7Car.direction
        = c7Car.direction ∧
      (c7Car.intendedMovement = .left ∨ c7Car.intendedMovement = .right) ∧
      c7I.processCarInIntersection c7Car c7Car.direction = none) ∧
    (∃ c', findCarData (moveCarInIntersection c7State c7Car "main_intersection").1.cars
        "l" = some c' ∧
      (moveCarInIntersection c7State c7Car "main_intersection").1.intersections
        = c7State.intersections ∧
      (moveCarInIntersection c7State c7Car "main_intersection").1.carEntryDirections
        = c7State.carEntryDirections ∧
      c'.direction = c7Car.direction ∧
      c'.intendedMovement = c7Car.intendedMovement ∧
      (c'.position = c7Car.position ∨ c'.position = c7Car.getNextPosition 1) ∧
      c7I.processCarInIntersection c' c'.direction = none) :=
  ⟨⟨rfl, rfl, by decide, Or.inr (by decide), by decide⟩,
    c7_turning_car_never_exits c7State "main_intersection" c7I "l" c7Car
      rfl rfl (by decide) (Or.inr (by decide)) (by decide)⟩

/-- Repeated ticks with an injected permutation sequence. -/
def runTicks (perms : List (List String)) (s : SimState) : SimState :=
  perms.foldl tickP s

/-- C10.  Determinism modulo ordering: two runs from identical states
with identical injected per-tick permutations produce identical states
after every number of ticks — tick count, cars (positions, headings,
wait counters), roads, intersections (signals and active sets) and the
entry-direction table all agree. -/
theorem c10_determinism (s1 s2 : SimState) (perms : List (List String))
    (h : s1 = s2) :
    runTicks perms s1 = runTicks perms s2 ∧
    (runTicks perms s1).tickCount = (runTicks perms s2).tickCount ∧
    (runTicks perms s1).cars = (runTicks perms s2).cars ∧
    (runTicks perms s1).roads = (runTicks perms s2).roads ∧
    (runTicks perms s1).intersections = (runTicks perms s2).intersections ∧
    (runTicks perms s1).carEntryDirections
      = (runTicks perms s2).carEntryDirections := by
  subst h
  exact ⟨rfl, rfl, rfl, rfl, rfl, rfl⟩

/-- Witness for determinism at a concrete state and permutation list. -/
theorem c10_determinism_witness :
    runTicks [["w1"]] orphanRunStart = runTicks [["w1"]] orphanRunStart :=
  (c10_determinism orphanRunStart orphanRunStart [["w1"]] rfl).1

/-- Road after `add_car` appended the car's id to lane `ln`. -/
def roadWithLaneAdded (road : Road) (lane : Lane) (ln : Nat) (cid : String) : Road :=
  { road with lanes := road.lanes.set ln { lane with cars := lane.cars ++ [cid] } }

lemma simAddCar_unknownRoad (s : SimState) (c : Car) (rid : String) (ln : Nat)
    (hR : lookupRoad s rid = none) : simAddCar s c rid ln = (s, false) := by
  simp only [simAddCar, hR]

lemma simAddCar_unknownLane (s : SimState) (c : Car) (rid : String) (ln : Nat)
    (road : Road) (hR : lookupRoad s rid = some road)
    (hL : road.lanes.get? ln = none) : simAddCar s c rid ln = (s, false) := by
  simp only [simAddCar, hR, Road.addCar, hL, Bool.false_eq_true, if_false]

lemma simAddCar_reject (s : SimState) (c : Car) (rid : String) (ln : Nat)
    (road : Road) (lane : Lane) (hR : lookupRoad s rid = some road)
    (hL : road.lanes.get? ln = some lane)
    (hcond : (lane.cars.length < lane.maxCars &&
      decide (c.position ∈ lane.positions)) = false) :
    simAddCar s c rid ln = (s, false) := by
  simp only [simAddCar, hR, Road.addCar, hL, Lane.addCar, hcond,
    Bool.false_eq_true, if_false]

lemma simAddCar_accept (s : SimState) (c : Car) (rid : String) (ln : Nat)
    (road : Road) (lane : Lane) (hR : lookupRoad s rid = some road)
    (hL : road.lanes.get? ln = some lane)
    (hcond : (lane.cars.length < lane.maxCars &&
      decide (c.position ∈ lane.positions)) = true) :
    simAddCar s c rid ln =
      ({ s with
          roads := s.roads.map (fun r =>
            if r.roadId == rid then roadWithLaneAdded road lane ln c.carId else r)
          cars := s.cars ++ [{ c with lane := ln }] }, true) := by
  simp only [simAddCar, hR, Road.addCar, hL, Lane.addCar, hcond, if_true,
    roadWithLaneAdded]

/-- C8.  `add_car` contract: the call returns True exactly when the
road id is known, the lane number names one of its lanes, the lane
holds fewer cars than it has cells, and the car's current position is
one of that lane's cells; on True the car is appended to the engine's
car list (with its lane index set) and to the lane; on False the state
is unchanged.  The hypothesis records that every constructed lane's
capacity equals its cell count (`max_cars = len(positions)`). -/
theorem c8_add_car_spec (s : SimState) (c : Car) (rid : String) (ln : Nat)
    (hmax : ∀ r ∈ s.roads, ∀ l ∈ r.lanes, l.maxCars = l.positions.length) :
    ((simAddCar s c rid ln).2 = true ↔
      ∃ road lane, lookupRoad s rid = some road ∧ road.lanes.get? ln = some lane ∧
        lane.cars.length < lane.positions.length ∧ c.position ∈ lane.positions) ∧
    ((simAddCar s c rid ln).2 = true →
      (simAddCar s c rid ln).1.cars = s.cars ++ [{ c with lane := ln }] ∧
      (∃ road lane, lookupRoad s rid = some road ∧ road.lanes.get? ln = some lane ∧
        (simAddCar s c rid ln).1.roads = s.roads.map (fun r =>
          if r.roadId == rid then roadWithLaneAdded road lane ln c.carId else r)) ∧
      (simAddCar s c rid ln).1.intersections = s.intersections ∧
      (simAddCar s c rid ln).1.carEntryDirections = s.carEntryDirections) ∧
    ((simAddCar s c rid ln).2 = false → (simAddCar s c rid ln).1 = s) := by
  cases hR : lookupRoad s rid with
  | none =>
      rw [simAddCar_unknownRoad s c rid ln hR]
      refine ⟨?_, ?_, ?_⟩
      · constructor
        · intro h
          cases h
        · rintro ⟨road, lane, h1, -⟩
          cases h1
      · intro h
        cases h
      · intro _
        rfl
  | some road =>
      have hroadmem : road ∈ s.roads := by
        have hR2 := hR
        unfold lookupRoad at hR2
        exact List.mem_of_find?_eq_some hR2
      cases hL : road.lanes.get? ln with
      | none =>
          rw [simAddCar_unknownLane s c rid ln road hR hL]
          refine ⟨?_, ?_, ?_⟩
          · constructor
            · intro h
              cases h
            · rintro ⟨road', lane, h1, h2, -⟩
              cases h1
              rw [hL] at h2
              cases h2
          · intro h
            cases h
          · intro _
            rfl
      | some lane =>
          have hlanemem : lane ∈ road.lanes := List.get?_mem hL
          have hmc : lane.maxCars = lane.positions.length :=
            hmax road hroadmem lane hlanemem
          cases hcond : (lane.cars.length < lane.maxCars &&
              decide (c.position ∈ lane.positions)) with
          | true =>
              rw [simAddCar_accept s c rid ln road lane hR hL hcond]
              have hc2 := hcond
              simp only [Bool.and_eq_true, decide_eq_true_eq] at hc2
              refine ⟨?_, ?_, ?_⟩
              · constructor
                · intro _
                  exact ⟨road, lane, rfl, hL, by rw [← hmc]; exact hc2.1, hc2.2⟩
                · intro _
                  rfl
              · intro _
                exact ⟨rfl, ⟨road, lane, rfl, hL, rfl⟩, rfl, rfl⟩
              · intro h
                cases h
          | false =>
              rw [simAddCar_reject s c rid ln road lane hR hL hcond]
              refine ⟨?_, ?_, ?_⟩
              · constructor
                · intro h
                  cases h
                · rintro ⟨road', lane', h1, h2, h3, h4⟩
                  cases h1
                  rw [hL] at h2
                  cases h2
                  have hcc : (lane.cars.length < lane.maxCars &&
                      decide (c.position ∈ lane.positions)) = true := by
                    rw [Bool.and_eq_true]
                    exact ⟨decide_eq_true (by rw [hmc]; exact h3), decide_eq_true h4⟩
                  rw [hcond] at hcc
                  cases hcc
              · intro h
                cases h
              · intro _
                rfl

/-- Witness for the `add_car` contract on the reference network. -/
theorem c8_add_car_spec_witness :
    (∀ r ∈ fourWayStart.roads, ∀ l ∈ r.lanes, l.maxCars = l.positions.length) ∧
    ((simAddCar fourWayStart (mkCar "a" (4, 10) .south) "north_road" 0).2 = true ↔
      ∃ road lane, lookupRoad fourWayStart "north_road" = some road ∧
        road.lanes.get? 0 = some lane ∧
        lane.cars.length < lane.positions.length ∧
        (mkCar "a" (4, 10) .south).position ∈ lane.positions) :=
  ⟨by decide,
    (c8_add_car_spec fourWayStart (mkCar "a" (4, 10) .south) "north_road" 0
      (by decide)).1⟩

/-! Helper lemmas for the `remove_car` contract. -/

lemma eraseP_no_match {α : Type} (p : α → Bool) :
    ∀ l : List α, (l.filter p).length ≤ 1 → ∀ a ∈ l.eraseP p, p a = false := by
  intro l
  induction l with
  | nil =>
      intro _ a ha
      cases ha
  | cons x l ih =>
      intro h a ha
      cases px : p x with
      | true =>
          rw [show (x :: l).eraseP p = l from by simp [List.eraseP_cons, px]] at ha
          have hlen : (l.filter p).length = 0 := by
            rw [show (x :: l).filter p = x :: l.filter p from by
              simp [List.filter_cons, px]] at h
            simp only [List.length_cons] at h
            omega
          have hnil : l.filter p = [] := List.length_eq_zero.mp hlen
          have := List.filter_eq_nil_iff.mp hnil a ha
          simpa using this
      | false =>
          rw [show (x :: l).eraseP p = x :: l.eraseP p from by
            simp [List.eraseP_cons, px]] at ha
          rcases List.mem_cons.mp ha with ha | ha
          · subst ha
            exact px
          · refine ih ?_ a ha
            rw [show (x :: l).filter p = l.filter p from by
              simp [List.filter_cons, px]] at h
            exact h

lemma find?_eraseP {α : Type} (p q : α → Bool)
    (hpq : ∀ a, p a = true → q a = false) :
    ∀ l : List α, (l.eraseP q).find? p = l.find? p := by
  intro l
  induction l with
  | nil => rfl
  | cons x l ih =>
      cases qx : q x with
      | true =>
          rw [show (x :: l).eraseP q = l from by simp [List.eraseP_cons, qx]]
          have px : p x = false := by
            cases px : p x with
            | true =>
                rw [hpq x px] at qx
                cases qx
            | false => rfl
          rw [show (x :: l).find? p = l.find? p from by simp [List.find?_cons, px]]
      | false =>
          rw [show (x :: l).eraseP q = x :: l.eraseP q from by
            simp [List.eraseP_cons, qx]]
          cases px : p x with
          | true =>
              rw [show (x :: l.eraseP q).find? p = some x from by
                  simp [List.find?_cons, px],
                show (x :: l).find? p = some x from by simp [List.find?_cons, px]]
          | false =>
              rw [show (x :: l.eraseP q).find? p = (l.eraseP q).find? p from by
                  simp [List.find?_cons, px],
                show (x :: l).find? p = l.find? p from by simp [List.find?_cons, px],
                ih]

lemma lanesRemoveFirst_no_mem (cid : String) :
    ∀ ls : List Lane, ((ls.map (fun l => l.cars.count cid)).sum ≤ 1) →
      ∀ l' ∈ (lanesRemoveFirst ls cid).1, cid ∉ l'.cars := by
  intro ls
  induction ls with
  | nil =>
      intro _ l' hl'
      cases hl'
  | cons l ls ih =>
      intro h l' hl'
      by_cases hmem : cid ∈ l.cars
      · rw [show (lanesRemoveFirst (l :: ls) cid).1
            = { l with cars := l.cars.erase cid } :: ls from by
          simp [lanesRemoveFirst, hmem]] at hl'
        have hcount : 0 < l.cars.count cid := List.count_pos_iff.mpr hmem
        have hsum : (ls.map (fun l => l.cars.count cid)).sum = 0 := by
          simp only [List.map_cons, List.sum_cons] at h
          omega
        rcases List.mem_cons.mp hl' with hl' | hl'
        · subst hl'
          intro hcon
          have h2 : l.cars.count cid ≤ 1 := by
            simp only [List.map_cons, List.sum_cons] at h
            omega
          have h3 : (l.cars.erase cid).count cid = l.cars.count cid - 1 :=
            List.count_erase_self cid l.cars
          have h4 : 0 < (l.cars.erase cid).count cid := List.count_pos_iff.mpr hcon
          simp only [] at h4
          omega
        · intro hcon
          have hpos : 0 < l'.cars.count cid := List.count_pos_iff.mpr hcon
          have hle : l'.cars.count cid ≤ (ls.map (fun l => l.cars.count cid)).sum :=
            List.le_sum_of_mem (List.mem_map_of_mem _ hl')
          omega
      · rw [show (lanesRemoveFirst (l :: ls) cid).1
            = l :: (lanesRemoveFirst ls cid).1 from by
          simp [lanesRemoveFirst, hmem]] at hl'
        rcases List.mem_cons.mp hl' with hl' | hl'
        · subst hl'
          exact hmem
        · refine ih ?_ l' hl'
          simp only [List.map_cons, List.sum_cons] at h
          omega

lemma removeCarFromIntersection_no_mem (i : Intersection) (cid : String)
    (h : i.carsInIntersection.count cid ≤ 1) :
    cid ∉ (i.removeCarFromIntersection cid).carsInIntersection := by
  unfold Intersection.removeCarFromIntersection
  by_cases hmem : cid ∈ i.carsInIntersection
  · rw [if_pos hmem]
    intro hcon
    have h1 : 0 < i.carsInIntersection.count cid := List.count_pos_iff.mpr hmem
    have h2 : (i.carsInIntersection.erase cid).count cid
        = i.carsInIntersection.count cid - 1 := List.count_erase_self cid _
    have h3 : 0 < (i.carsInIntersection.erase cid).count cid :=
      List.count_pos_iff.mpr hcon
    omega
  · rw [if_neg hmem]
    exact hmem

lemma entryLookup_entryErase_self (l : List (String × Direction)) (cid : String) :
    entryLookup (entryErase l cid) cid = none := by
  unfold entryLookup entryErase
  rw [show (l.filter (fun p => p.1 != cid)).find? (fun p => p.1 == cid) = none from ?_]
  · rfl
  · rw [List.find?_eq_none]
    intro x hx
    have hq := (List.mem_filter.mp hx).2
    simp only [bne_iff_ne, ne_eq] at hq
    simp [hq]

lemma find?_filter_keep {α : Type} (p q : α → Bool)
    (h : ∀ a, p a = true → q a = true) :
    ∀ l : List α, (l.filter q).find? p = l.find? p := by
  intro l
  induction l with
  | nil => rfl
  | cons x l ih =>
      cases qx : q x with
      | true =>
          rw [show (x :: l).filter q = x :: l.filter q from by
            simp [List.filter_cons, qx]]
          cases px : p x with
          | true =>
              rw [show (x :: l.filter q).find? p = some x from by
                  simp [List.find?_cons, px],
                show (x :: l).find? p = some x from by simp [List.find?_cons, px]]
          | false =>
              rw [show (x :: l.filter q).find? p = (l.filter q).find? p from by
                  simp [List.find?_cons, px],
                show (x :: l).find? p = l.find? p from by simp [List.find?_cons, px],
                ih]
      | false =>
          rw [show (x :: l).filter q = l.filter q from by simp [List.filter_cons, qx]]
          have px : p x = false := by
            cases px : p x with
            | true =>
                rw [h x px] at qx
                cases qx
            | false => rfl
          rw [show (x :: l).find? p = l.find? p from by simp [List.find?_cons, px], ih]

lemma entryLookup_entryErase_other (l : List (String × Direction)) (cid cid' : String)
    (hne : cid' ≠ cid) :
    entryLookup (entryErase l cid) cid' = entryLookup l cid' := by
  unfold entryLookup entryErase
  rw [find?_filter_keep]
  intro a ha
  have : a.1 = cid' := eq_of_beq ha
  simp [this, hne]

lemma mem_getAllCars (r : Road) (cid : String) :
    cid ∈ r.getAllCars ↔ ∃ l ∈ r.lanes, cid ∈ l.cars := by
  unfold Road.getAllCars
  induction r.lanes with
  | nil => simp
  | cons l ls ih =>
      simp only [List.foldr_cons, List.mem_append, ih, List.mem_cons]
      constructor
      · rintro (h | ⟨l', hl', hm⟩)
        · exact ⟨l, Or.inl rfl, h⟩
        · exact ⟨l', Or.inr hl', hm⟩
      · rintro ⟨l', hl' | hl', hm⟩
        · subst hl'
          exact Or.inl hm
        · exact Or.inr ⟨l', hl', hm⟩

lemma mem_lanesRemoveFirst_iff (cid cid' : String) (hne : cid' ≠ cid) :
    ∀ ls : List Lane,
      (∃ l ∈ (lanesRemoveFirst ls cid).1, cid' ∈ l.cars) ↔ (∃ l ∈ ls, cid' ∈ l.cars) := by
  intro ls
  induction ls with
  | nil => simp [lanesRemoveFirst]
  | cons l ls ih =>
      by_cases hmem : cid ∈ l.cars
      · rw [show (lanesRemoveFirst (l :: ls) cid).1
            = { l with cars := l.cars.erase cid } :: ls from by
          simp [lanesRemoveFirst, hmem]]
        constructor
        · rintro ⟨l', hl', hm⟩
          rcases List.mem_cons.mp hl' with hl' | hl'
          · rw [hl'] at hm
            exact ⟨l, List.mem_cons_self _ _, (List.mem_erase_of_ne hne).mp hm⟩
          · exact ⟨l', List.mem_cons_of_mem _ hl', hm⟩
        · rintro ⟨l', hl', hm⟩
          rcases List.mem_cons.mp hl' with hl' | hl'
          · rw [hl'] at hm
            exact ⟨{ l with cars := l.cars.erase cid }, List.mem_cons_self _ _,
              (List.mem_erase_of_ne hne).mpr hm⟩
          · exact ⟨l', List.mem_cons_of_mem _ hl', hm⟩
      · rw [show (lanesRemoveFirst (l :: ls) cid).1
            = l :: (lanesRemoveFirst ls cid).1 from by
          simp [lanesRemoveFirst, hmem]]
        constructor
        · rintro ⟨l', hl', hm⟩
          rcases List.mem_cons.mp hl' with hl' | hl'
          · rw [hl'] at hm
            exact ⟨l, List.mem_cons_self _ _, hm⟩
          · rcases ih.mp ⟨l', hl', hm⟩ with ⟨l'', hl'', hm''⟩
            exact ⟨l'', List.mem_cons_of_mem _ hl'', hm''⟩
        · rintro ⟨l', hl', hm⟩
          rcases List.mem_cons.mp hl' with hl' | hl'
          · rw [hl'] at hm
            exact ⟨l, List.mem_cons_self _ _, hm⟩
          · rcases ih.mpr ⟨l', hl', hm⟩ with ⟨l'', hl'', hm''⟩
            exact ⟨l'', List.mem_cons_of_mem _ hl'', hm''⟩

lemma mem_getAllCars_removeCar (r : Road) (cid cid' : String) (hne : cid' ≠ cid) :
    cid' ∈ (r.removeCar cid).1.getAllCars ↔ cid' ∈ r.getAllCars := by
  rw [mem_getAllCars, mem_getAllCars]
  show (∃ l ∈ (lanesRemoveFirst r.lanes cid).1, cid' ∈ l.cars) ↔ _
  exact mem_lanesRemoveFirst_iff cid cid' hne r.lanes

lemma mem_removeCarFromIntersection_iff (i : Intersection) (cid cid' : String)
    (hne : cid' ≠ cid) :
    cid' ∈ (i.removeCarFromIntersection cid).carsInIntersection
      ↔ cid' ∈ i.carsInIntersection := by
  unfold Intersection.removeCarFromIntersection
  by_cases hmem : cid ∈ i.carsInIntersection
  · rw [if_pos hmem]
    exact List.mem_erase_of_ne hne
  · rw [if_neg hmem]

lemma removeCar_lanes (r : Road) (cid : String) :
    (r.removeCar cid).1.lanes = (lanesRemoveFirst r.lanes cid).1 := by
  unfold Road.removeCar
  rcases h : lanesRemoveFirst r.lanes cid with ⟨lanes', b⟩
  simp [h]

lemma removeCar_roadId (r : Road) (cid : String) :
    (r.removeCar cid).1.roadId = r.roadId := by
  unfold Road.removeCar
  rcases h : lanesRemoveFirst r.lanes cid with ⟨lanes', b⟩
  simp [h]

lemma simRemoveCar_noop (s : SimState) (cid : String)
    (h : ((s.cars.map Car.carId).contains cid) = false) : simRemoveCar s cid = s := by
  simp only [simRemoveCar, h, Bool.false_eq_true, if_false]

/-- C9.  `remove_car` contract: for a registered car the call removes
it from the car list, from every road's lanes, from every
intersection's active set, and deletes its entry-direction record,
leaving every other car's registry data, container and entry record
unchanged; for an unregistered car it is a no-op; and applying it twice
equals applying it once.  The multiplicity hypotheses say the car is
registered at most once and held at most once per road and per
intersection (as object identity guarantees in the source). -/
theorem c9_remove_car_spec (s : SimState) (cid : String)
    (hcars : (s.cars.filter (fun c => c.carId == cid)).length ≤ 1)
    (hroads : ∀ r ∈ s.roads, (r.lanes.map (fun l => l.cars.count cid)).sum ≤ 1)
    (hinters : ∀ i ∈ s.intersections, i.carsInIntersection.count cid ≤ 1) :
    (cid ∈ s.cars.map Car.carId →
      (∀ c' ∈ (simRemoveCar s cid).cars, c'.carId ≠ cid) ∧
      (∀ r ∈ (simRemoveCar s cid).roads, ∀ l ∈ r.lanes, cid ∉ l.cars) ∧
      (∀ i ∈ (simRemoveCar s cid).intersections, cid ∉ i.carsInIntersection) ∧
      entryLookup (simRemoveCar s cid).carEntryDirections cid = none ∧
      findCarLocation (simRemoveCar s cid) cid = (none, none)) ∧
    (∀ cid', cid' ≠ cid →
      findCarData (simRemoveCar s cid).cars cid' = findCarData s.cars cid' ∧
      findCarLocation (simRemoveCar s cid) cid' = findCarLocation s cid' ∧
      entryLookup (simRemoveCar s cid).carEntryDirections cid'
        = entryLookup s.carEntryDirections cid') ∧
    (cid ∉ s.cars.map Car.carId → simRemoveCar s cid = s) ∧
    simRemoveCar (simRemoveCar s cid) cid = simRemoveCar s cid := by
  by_cases hin : cid ∈ s.cars.map Car.carId
  · have hcont : ((s.cars.map Car.carId).contains cid) = true :=
      List.elem_eq_true_of_mem hin
    have hs' : simRemoveCar s cid =
        { s with
            cars := s.cars.eraseP (fun c => c.carId == cid)
            roads := s.roads.map (fun r => (r.removeCar cid).1)
            intersections :=
              s.intersections.map (fun i => i.removeCarFromIntersection cid)
            carEntryDirections := entryErase s.carEntryDirections cid } := by
      simp only [simRemoveCar, hcont, if_true]
    have hA : ∀ c' ∈ (simRemoveCar s cid).cars, c'.carId ≠ cid := by
      rw [hs']
      intro c' hc'
      exact ne_of_beq_false (eraseP_no_match _ s.cars hcars c' hc')
    have hB : ∀ r ∈ (simRemoveCar s cid).roads, ∀ l ∈ r.lanes, cid ∉ l.cars := by
      rw [hs']
      intro r' hr' l hl
      rcases List.mem_map.mp hr' with ⟨r, hr, heq⟩
      rw [← heq, removeCar_lanes] at hl
      exact lanesRemoveFirst_no_mem cid r.lanes (hroads r hr) l hl
    have hC : ∀ i ∈ (simRemoveCar s cid).intersections,
        cid ∉ i.carsInIntersection := by
      rw [hs']
      intro i' hi'
      rcases List.mem_map.mp hi' with ⟨i, hi, heq⟩
      rw [← heq]
      exact removeCarFromIntersection_no_mem i cid (hinters i hi)
    have hD : entryLookup (simRemoveCar s cid).carEntryDirections cid = none := by
      rw [hs']
      exact entryLookup_entryErase_self s.carEntryDirections cid
    have hLoc : findCarLocation (simRemoveCar s cid) cid = (none, none) := by
      have h1 : (simRemoveCar s cid).roads.find?
          (fun r => decide (cid ∈ r.getAllCars)) = none := by
        rw [List.find?_eq_none]
        intro r' hr'
        simp only [decide_eq_true_eq]
        intro hc
        rcases (mem_getAllCars r' cid).mp hc with ⟨l, hl, hm⟩
        exact hB r' hr' l hl hm
      have h2 : (simRemoveCar s cid).intersections.find?
          (fun i => decide (cid ∈ i.carsInIntersection)) = none := by
        rw [List.find?_eq_none]
        intro i' hi'
        simp only [decide_eq_true_eq]
        exact hC i' hi'
      unfold findCarLocation
      rw [h1, h2]
    refine ⟨fun _ => ⟨hA, hB, hC, hD, hLoc⟩, ?_, ?_, ?_⟩
    · intro cid' hne
      refine ⟨?_, ?_, ?_⟩
      · rw [hs']
        show (s.cars.eraseP (fun c => c.carId == cid)).find?
            (fun c => c.carId == cid') = findCarData s.cars cid'
        rw [find?_eraseP (fun c => c.carId == cid') (fun c => c.carId == cid)
          (fun a ha => by
            have h1 : a.carId = cid' := eq_of_beq ha
            show (a.carId == cid) = false
            rw [h1]
            exact beq_false_of_ne hne) s.cars]
        rfl
      · rw [hs']
        unfold findCarLocation
        have hproads : (s.roads.map (fun r => (r.removeCar cid).1)).find?
            (fun r => decide (cid' ∈ r.getAllCars))
            = (s.roads.find? (fun r => decide (cid' ∈ r.getAllCars))).map
              (fun r => (r.removeCar cid).1) := by
          refine find?_map_pres _ _ ?_ s.roads
          intro r
          exact decide_eq_decide.mpr (mem_getAllCars_removeCar r cid cid' hne)
        have hpinters : (s.intersections.map
              (fun i => i.removeCarFromIntersection cid)).find?
            (fun i => decide (cid' ∈ i.carsInIntersection))
            = (s.intersections.find?
                (fun i => decide (cid' ∈ i.carsInIntersection))).map
              (fun i => i.removeCarFromIntersection cid) := by
          refine find?_map_pres _ _ ?_ s.intersections
          intro i
          exact decide_eq_decide.mpr (mem_removeCarFromIntersection_iff i cid cid' hne)
        rw [hproads, hpinters]
        cases hfr : s.roads.find? (fun r => decide (cid' ∈ r.getAllCars)) with
        | some r =>
            simp only [Option.map_some']
            rw [removeCar_roadId]
        | none =>
            simp only [Option.map_none']
            cases hfi : s.intersections.find?
                (fun i => decide (cid' ∈ i.carsInIntersection)) with
            | some i =>
                simp only [Option.map_some']
                rw [removeCarFromIntersection_id]
            | none =>
                simp only [Option.map_none']
      · rw [hs']
        exact entryLookup_entryErase_other s.carEntryDirections cid cid' hne
    · intro hno
      exact absurd hin hno
    · have hnm : (((simRemoveCar s cid).cars.map Car.carId).contains cid) = false := by
        cases hc : ((simRemoveCar s cid).cars.map Car.carId).contains cid with
        | true =>
            exfalso
            have hmem := List.mem_of_elem_eq_true hc
            rcases List.mem_map.mp hmem with ⟨c', hc', heq⟩
            exact hA c' hc' heq
        | false => rfl
      exact simRemoveCar_noop (simRemoveCar s cid) cid hnm
  · have hcont : ((s.cars.map Car.carId).contains cid) = false := by
      cases hc : ((s.cars.map Car.carId).contains cid) with
      | true =>
          exfalso
          exact hin (List.mem_of_elem_eq_true hc)
      | false => rfl
    have hs' : simRemoveCar s cid = s := simRemoveCar_noop s cid hcont
    refine ⟨fun hin2 => absurd hin2 hin, ?_, fun _ => hs', ?_⟩
    · intro cid' _
      rw [hs']
      exact ⟨rfl, rfl, rfl⟩
    · rw [hs', hs']

/-- Witness for the `remove_car` contract on a concrete populated
state. -/
theorem c9_remove_car_spec_witness :
    ((orphanRunStart.cars.filter (fun c => c.carId == "w1")).length ≤ 1 ∧
      "w1" ∈ orphanRunStart.cars.map Car.carId) ∧
    (findCarLocation (simRemoveCar orphanRunStart "w1") "w1" = (none, none) ∧
      simRemoveCar (simRemoveCar orphanRunStart "w1") "w1"
        = simRemoveCar orphanRunStart "w1") :=
  ⟨⟨by decide, by decide⟩, by
    have h := c9_remove_car_spec orphanRunStart "w1" (by decide) (by decide) (by decide)
    exact ⟨(h.1 (by decide)).2.2.2.2, h.2.2.2⟩⟩

/-! Wait-counter behaviour of a single move attempt. -/

lemma findCarData_map_wait_simRoadAddExisting (s : SimState) (rid cid : String)
    (ln : Nat) :
    (findCarData (simRoadAddExisting s rid cid ln).cars cid).map Car.waitTime
      = (findCarData s.cars cid).map Car.waitTime := by
  unfold simRoadAddExisting
  cases hR : lookupRoad s rid with
  | none => rfl
  | some road =>
      cases hC : findCarData s.cars cid with
      | none => simp [hC]
      | some c =>
          rcases hadd : road.addCar c ln with ⟨road', ok⟩
          cases ok with
          | false => simp [hadd, hC]
          | true =>
              simp only [hadd, hC, if_true]
              have hres := findCarData_updateCar_self
                { s with roads := s.roads.map (fun r => if r.roadId == rid then road' else r) }
                cid (fun cc => { cc with lane := ln }) (fun x => rfl) c hC
              rw [hres]
              rfl

lemma wait_after_increment (s : SimState) (cid : String) (c : Car)
    (hc : findCarData s.cars cid = some c) :
    (findCarData (updateCar s cid Car.incrementWaitTime).cars cid).map Car.waitTime
      = some (c.waitTime + 1) := by
  rw [findCarData_updateCar_self s cid Car.incrementWaitTime (fun x => rfl) c hc]
  rfl

lemma wait_after_moveTo (s : SimState) (cid : String) (c : Car) (p : Pos)
    (hc : findCarData s.cars cid = some c) :
    (findCarData (updateCar s cid (fun cc => cc.moveTo p)).cars cid).map Car.waitTime
      = some 0 := by
  rw [findCarData_updateCar_self s cid (fun cc => cc.moveTo p) (fun x => rfl) c hc]
  rfl

lemma wait_after_turn_moveTo (s : SimState) (cid : String) (c : Car) (d : Direction)
    (p : Pos) (hc : findCarData s.cars cid = some c) :
    (findCarData (updateCar s cid (fun cc => (cc.turn d).moveTo p)).cars cid).map
      Car.waitTime = some 0 := by
  rw [findCarData_updateCar_self s cid (fun cc => (cc.turn d).moveTo p)
    (fun x => rfl) c hc]
  rfl

lemma moveCarOnRoad_wait (s : SimState) (cid : String) (c : Car) (rid : String)
    (hc : findCarData s.cars cid = some c) (hcid : c.carId = cid) :
    ((moveCarOnRoad s c rid).2 = true →
      (findCarData (moveCarOnRoad s c rid).1.cars cid).map Car.waitTime = some 0) ∧
    ((moveCarOnRoad s c rid).2 = false →
      (findCarData (moveCarOnRoad s c rid).1.cars cid).map Car.waitTime
        = some (c.waitTime + 1)) := by
  subst hcid
  unfold moveCarOnRoad
  cases hv : simIsValidPosition s (c.getNextPosition 1) with
  | false =>
      simp only [hv, Bool.not_false, if_true]
      exact ⟨fun h => Bool.noConfusion h, fun _ => wait_after_increment s c.carId c hc⟩
  | true =>
      simp only [hv, Bool.not_true, Bool.false_eq_true, if_false]
      cases hI : getIntersectionAtPosition s (c.getNextPosition 1) with
      | none =>
          cases hfree : simIsPositionFree s (c.getNextPosition 1) with
          | false =>
              simp only [hI, hfree, Bool.not_false, if_true]
              exact ⟨fun h => Bool.noConfusion h, fun _ => wait_after_increment s c.carId c hc⟩
          | true =>
              simp only [hI, hfree, Bool.not_true, Bool.false_eq_true, if_false]
              exact ⟨fun _ => wait_after_moveTo s c.carId c _ hc, fun h => Bool.noConfusion h⟩
      | some inter =>
          cases hE : inter.canCarEnter s.cars c c.direction with
          | false =>
              simp only [hI, hE, Bool.false_eq_true, if_false]
              exact ⟨fun h => h.elim, fun _ => wait_after_increment s c.carId c hc⟩
          | true =>
              simp only [hI, hE, if_true]
              refine ⟨fun _ => ?_, fun h => Bool.noConfusion h⟩
              exact wait_after_moveTo
                (updateRoad s rid (fun r => (r.removeCar c.carId).1)) c.carId c
                (c.getNextPosition 1) hc

lemma moveCarInIntersection_wait (s : SimState) (cid : String) (c : Car) (iid : String)
    (hc : findCarData s.cars cid = some c) (hcid : c.carId = cid)
    (hex : (lookupIntersection s iid).isSome = true)
    (hconn : ∀ i, lookupIntersection s iid = some i →
      ∀ d rid', i.connectedRoads.get d = some rid' →
        (lookupRoad s rid').isSome = true) :
    ((moveCarInIntersection s c iid).2 = true →
      (findCarData (moveCarInIntersection s c iid).1.cars cid).map Car.waitTime
        = some 0) ∧
    ((moveCarInIntersection s c iid).2 = false →
      (findCarData (moveCarInIntersection s c iid).1.cars cid).map Car.waitTime
        = some (c.waitTime + 1)) := by
  subst hcid
  unfold moveCarInIntersection
  cases hI : lookupIntersection s iid with
  | none =>
      rw [hI] at hex
      cases hex
  | some inter =>
      have hcont : ((interContinueMove s c inter).2 = true →
          (findCarData (interContinueMove s c inter).1.cars c.carId).map Car.waitTime
            = some 0) ∧
          ((interContinueMove s c inter).2 = false →
          (findCarData (interContinueMove s c inter).1.cars c.carId).map Car.waitTime
            = some (c.waitTime + 1)) := by
        unfold interContinueMove
        cases hmv : (decide (c.getNextPosition 1 ∈ inter.intersectionPositions) &&
            inter.isIntersectionPositionFree s.cars (c.getNextPosition 1)) with
        | true =>
            simp only [hmv, if_true]
            exact ⟨fun _ => wait_after_moveTo s c.carId c _ hc, fun h => Bool.noConfusion h⟩
        | false =>
            simp only [hmv, Bool.false_eq_true, if_false]
            exact ⟨fun h => h.elim, fun _ => wait_after_increment s c.carId c hc⟩
      cases hP : inter.processCarInIntersection c
          ((entryLookup s.carEntryDirections c.carId).getD c.direction) with
      | none =>
          simp only [hP]
          exact hcont
      | some exitDir =>
          simp only [hP]
          cases hCR : inter.connectedRoads.get exitDir with
          | none =>
              simp only [hCR]
              exact hcont
          | some exitRid =>
              simp only [hCR]
              cases hLR : lookupRoad s exitRid with
              | none =>
                  have := hconn inter hI exitDir exitRid hCR
                  rw [hLR] at this
                  cases this
              | some exitRoad =>
                  cases hfree : exitRoad.isPositionFree s.cars (c.getNextPosition 1) with
                  | false =>
                      simp only [hLR, hfree, Bool.false_eq_true, if_false]
                      exact ⟨fun h => h.elim,
                        fun _ => wait_after_increment s c.carId c hc⟩
                  | true =>
                      simp only [hLR, hfree, if_true]
                      refine ⟨fun _ => ?_, fun h => Bool.noConfusion h⟩
                      rw [show (findCarData
                          (simRoadAddExisting
                            (updateCar (updateIntersection s iid
                              (fun i => i.removeCarFromIntersection c.carId)) c.carId
                              (fun cc => (cc.turn exitDir).moveTo (c.getNextPosition 1)))
                            exitRid c.carId c.lane).cars c.carId).map Car.waitTime
                          = some 0 from ?_]
                      · rw [findCarData_map_wait_simRoadAddExisting]
                        exact wait_after_turn_moveTo
                          (updateIntersection s iid
                            (fun i => i.removeCarFromIntersection c.carId))
                          c.carId c exitDir (c.getNextPosition 1) hc

lemma findCarData_updateCar (s : SimState) (cid0 : String) (f : Car → Car)
    (hf : ∀ x, (f x).carId = x.carId) (cid : String) :
    findCarData (updateCar s cid0 f).cars cid
      = (findCarData s.cars cid).map (fun x => if x.carId == cid0 then f x else x) := by
  have hp : ∀ a : Car,
      (((fun x => if x.carId == cid0 then f x else x) a).carId == cid)
        = (a.carId == cid) := by
    intro a
    by_cases ha : (a.carId == cid0) = true
    · simp [ha, hf]
    · simp [ha]
  unfold findCarData updateCar
  exact find?_map_pres _ _ hp s.cars

lemma findCarData_updateCar_other (s : SimState) (cid0 : String) (f : Car → Car)
    (hf : ∀ x, (f x).carId = x.carId) (cid : String) (hne : cid ≠ cid0) :
    findCarData (updateCar s cid0 f).cars cid = findCarData s.cars cid := by
  rw [findCarData_updateCar s cid0 f hf cid]
  cases h : findCarData s.cars cid with
  | none => rfl
  | some x =>
      have hx : x.carId = cid := by
        have h2 := h
        unfold findCarData at h2
        have h3 := List.find?_some h2
        exact eq_of_beq h3
      have : (x.carId == cid0) = false := by
        rw [hx]
        exact beq_false_of_ne hne
      simp only [Option.map_some', this, Bool.false_eq_true, if_false]

lemma simRoadAddExisting_frame (s : SimState) (rid cid0 : String) (ln : Nat)
    (cid : String) (hne : cid ≠ cid0) :
    findCarData (simRoadAddExisting s rid cid0 ln).cars cid
      = findCarData s.cars cid := by
  unfold simRoadAddExisting
  cases hR : lookupRoad s rid with
  | none => rfl
  | some road =>
      cases hC : findCarData s.cars cid0 with
      | none => rfl
      | some c =>
          rcases hadd : road.addCar c ln with ⟨road', ok⟩
          cases ok with
          | false => simp [hadd]
          | true =>
              simp only [hadd, if_true]
              exact findCarData_updateCar_other _ cid0
                (fun cc => { cc with lane := ln }) (fun x => rfl) cid hne

lemma moveCarOnRoad_frame (s : SimState) (c : Car) (rid : String) (cid : String)
    (hne : cid ≠ c.carId) :
    findCarData (moveCarOnRoad s c rid).1.cars cid = findCarData s.cars cid := by
  unfold moveCarOnRoad
  cases hv : simIsValidPosition s (c.getNextPosition 1) with
  | false =>
      simp only [hv, Bool.not_false, if_true]
      exact findCarData_updateCar_other s c.carId Car.incrementWaitTime
        (fun x => rfl) cid hne
  | true =>
      simp only [hv, Bool.not_true, Bool.false_eq_true, if_false]
      cases hI : getIntersectionAtPosition s (c.getNextPosition 1) with
      | none =>
          cases hfree : simIsPositionFree s (c.getNextPosition 1) with
          | false =>
              simp only [hfree, Bool.not_false, if_true]
              exact findCarData_updateCar_other s c.carId Car.incrementWaitTime
                (fun x => rfl) cid hne
          | true =>
              simp only [hfree, Bool.not_true, Bool.false_eq_true, if_false]
              exact findCarData_updateCar_other s c.carId
                (fun cc => cc.moveTo (c.getNextPosition 1)) (fun x => rfl) cid hne
      | some inter =>
          cases hE : inter.canCarEnter s.cars c c.direction with
          | false =>
              simp only [hE, Bool.false_eq_true, if_false]
              exact findCarData_updateCar_other s c.carId Car.incrementWaitTime
                (fun x => rfl) cid hne
          | true =>
              simp only [hE, if_true]
              exact findCarData_updateCar_other
                (updateRoad s rid (fun r => (r.removeCar c.carId).1)) c.carId
                (fun cc => cc.moveTo (c.getNextPosition 1))
                (fun x => rfl) cid hne

lemma moveCarInIntersection_frame (s : SimState) (c : Car) (iid : String)
    (cid : String) (hne : cid ≠ c.carId) :
    findCarData (moveCarInIntersection s c iid).1.cars cid
      = findCarData s.cars cid := by
  unfold moveCarInIntersection
  cases hI : lookupIntersection s iid with
  | none => rfl
  | some inter =>
      have hcont : findCarData (interContinueMove s c inter).1.cars cid
          = findCarData s.cars cid := by
        unfold interContinueMove
        cases hmv : (decide (c.getNextPosition 1 ∈ inter.intersectionPositions) &&
            inter.isIntersectionPositionFree s.cars (c.getNextPosition 1)) with
        | true =>
            simp only [hmv, if_true]
            exact findCarData_updateCar_other s c.carId
              (fun cc => cc.moveTo (c.getNextPosition 1)) (fun x => rfl) cid hne
        | false =>
            simp only [hmv, Bool.false_eq_true, if_false]
            exact findCarData_updateCar_other s c.carId Car.incrementWaitTime
              (fun x => rfl) cid hne
      cases hP : inter.processCarInIntersection c
          ((entryLookup s.carEntryDirections c.carId).getD c.direction) with
      | none =>
          simp only [hP]
          exact hcont
      | some exitDir =>
          simp only [hP]
          cases hCR : inter.connectedRoads.get exitDir with
          | none =>
              simp only [hCR]
              exact hcont
          | some exitRid =>
              simp only [hCR]
              cases hLR : lookupRoad s exitRid with
              | none => rfl
              | some exitRoad =>
                  cases hfree : exitRoad.isPositionFree s.cars (c.getNextPosition 1) with
                  | false =>
                      simp only [hLR, hfree, Bool.false_eq_true, if_false]
                      exact findCarData_updateCar_other s c.carId Car.incrementWaitTime
                        (fun x => rfl) cid hne
                  | true =>
                      simp only [hLR, hfree, if_true]
                      rw [show findCarData
                          (simRoadAddExisting
                            (updateCar (updateIntersection s iid
                              (fun i => i.removeCarFromIntersection c.carId)) c.carId
                              (fun cc => (cc.turn exitDir).moveTo (c.getNextPosition 1)))
                            exitRid c.carId c.lane).cars cid
                          = findCarData s.cars cid from ?_]
                      rw [simRoadAddExisting_frame _ exitRid c.carId c.lane cid hne]
                      exact findCarData_updateCar_other
                        (updateIntersection s iid
                          (fun i => i.removeCarFromIntersection c.carId)) c.carId
                        (fun cc => (cc.turn exitDir).moveTo (c.getNextPosition 1))
                        (fun x => rfl) cid hne

lemma moveCar_frame (s : SimState) (cid0 cid : String) (hne : cid ≠ cid0) :
    findCarData (moveCar s cid0).1.cars cid = findCarData s.cars cid := by
  unfold moveCar
  cases hC : findCarData s.cars cid0 with
  | none => rfl
  | some c =>
      have hcid : c.carId = cid0 := by
        have h2 := hC
        unfold findCarData at h2
        have h3 := List.find?_some h2
        exact eq_of_beq h3
      have hne' : cid ≠ c.carId := by rw [hcid]; exact hne
      rcases hloc : findCarLocation s cid0 with ⟨o1, o2⟩
      cases o1 with
      | some rid =>
          simp only []
          exact moveCarOnRoad_frame s c rid cid hne'
      | none =>
          cases o2 with
          | some iid =>
              simp only []
              exact moveCarInIntersection_frame s c iid cid hne'
          | none => rfl

lemma processCars_frame (order : List String) :
    ∀ (s : SimState) (cid : String), (∀ x ∈ order, cid ≠ x) →
      findCarData (processCars s order).cars cid = findCarData s.cars cid := by
  induction order with
  | nil =>
      intro s cid _
      rfl
  | cons x order ih =>
      intro s cid h
      have hx : cid ≠ x := h x (List.mem_cons_self _ _)
      have hrest : ∀ y ∈ order, cid ≠ y := fun y hy => h y (List.mem_cons_of_mem _ hy)
      show findCarData (processCars (moveCar s x).1 order).cars cid = _
      rw [ih (moveCar s x).1 cid hrest]
      exact moveCar_frame s x cid hx

lemma findCarLocation_inter_isSome (s : SimState) (cid iid : String)
    (h : findCarLocation s cid = (none, some iid)) :
    (lookupIntersection s iid).isSome = true := by
  unfold findCarLocation at h
  cases hr : s.roads.find? (fun r => decide (cid ∈ r.getAllCars)) with
  | some r =>
      rw [hr] at h
      simp at h
  | none =>
      rw [hr] at h
      cases hi : s.intersections.find? (fun i => decide (cid ∈ i.carsInIntersection)) with
      | none =>
          rw [hi] at h
          simp at h
      | some i =>
          rw [hi] at h
          have hid : i.intersectionId = iid := by
            have := congrArg Prod.snd h
            simpa using this
          have hmem : i ∈ s.intersections := List.mem_of_find?_eq_some hi
          unfold lookupIntersection
          rw [List.find?_isSome]
          refine ⟨i, hmem, ?_⟩
          rw [hid]
          exact beq_self_eq_true iid

/-- Topology sanity: every connected-road identifier of every
intersection resolves in the engine's road table (true of all
constructed networks, where `connect_road` stores the very objects held
in the table). -/
def WellConnected (s : SimState) : Prop :=
  ∀ i ∈ s.intersections, ∀ d rid, i.connectedRoads.get d = some rid →
    (lookupRoad s rid).isSome = true

lemma moveCar_wait (s : SimState) (cid : String) (c : Car)
    (hc : findCarData s.cars cid = some c) (hwc : WellConnected s) :
    ((moveCar s cid).2 = true →
      (findCarData (moveCar s cid).1.cars cid).map Car.waitTime = some 0) ∧
    ((moveCar s cid).2 = false → findCarLocation s cid ≠ (none, none) →
      (findCarData (moveCar s cid).1.cars cid).map Car.waitTime
        = some (c.waitTime + 1)) ∧
    ((moveCar s cid).2 = false → findCarLocation s cid = (none, none) →
      (moveCar s cid).1 = s) := by
  have hcid : c.carId = cid := by
    have h2 := hc
    unfold findCarData at h2
    have h3 := List.find?_some h2
    exact eq_of_beq h3
  rcases hloc : findCarLocation s cid with ⟨o1, o2⟩
  cases o1 with
  | some rid =>
      simp only [moveCar, hc, hloc]
      have h := moveCarOnRoad_wait s cid c rid hc hcid
      refine ⟨h.1, fun hf _ => h.2 hf, fun _ he => ?_⟩
      simp at he
  | none =>
      cases o2 with
      | some iid =>
          simp only [moveCar, hc, hloc]
          have hex := findCarLocation_inter_isSome s cid iid hloc
          have hconn : ∀ i, lookupIntersection s iid = some i →
              ∀ d rid', i.connectedRoads.get d = some rid' →
                (lookupRoad s rid').isSome = true := by
            intro i hI d rid' hcr
            refine hwc i ?_ d rid' hcr
            unfold lookupIntersection at hI
            exact List.mem_of_find?_eq_some hI
          have h := moveCarInIntersection_wait s cid c iid hc hcid hex hconn
          refine ⟨h.1, fun hf _ => h.2 hf, fun _ he => ?_⟩
          simp at he
      | none =>
          simp only [moveCar, hc, hloc]
          exact ⟨fun h => Bool.noConfusion h, fun _ hne => absurd rfl hne,
            fun _ _ => by trivial⟩

/-- C6 (amended).  Within one tick each listed car is attempted exactly
once (the permutation `pre ++ [cid] ++ post` lists the car once); if
its attempt succeeds its wait counter is 0 after the tick, if its
attempt fails while the car is on a road or in an intersection the
counter is one more than before the tick, and if the attempt fails
because the car is in neither container (reachable through the
intersection-exit bug) the attempt leaves the state and the counter
unchanged. -/
theorem c6_wait_counter (s : SimState) (pre post : List String) (cid : String)
    (c : Car) (hpre : cid ∉ pre) (hpost : cid ∉ post)
    (hc : findCarData s.cars cid = some c)
    (hwc : WellConnected (processCars (tickLights s) pre)) :
    ((moveCar (processCars (tickLights s) pre) cid).2 = true →
      (findCarData (tickP s (pre ++ cid :: post)).cars cid).map Car.waitTime
        = some 0) ∧
    ((moveCar (processCars (tickLights s) pre) cid).2 = false →
      findCarLocation (processCars (tickLights s) pre) cid ≠ (none, none) →
      (findCarData (tickP s (pre ++ cid :: post)).cars cid).map Car.waitTime
        = some (c.waitTime + 1)) ∧
    ((moveCar (processCars (tickLights s) pre) cid).2 = false →
      findCarLocation (processCars (tickLights s) pre) cid = (none, none) →
      (findCarData (tickP s (pre ++ cid :: post)).cars cid).map Car.waitTime
        = some c.waitTime) := by
  have hcmid : findCarData (processCars (tickLights s) pre).cars cid = some c := by
    rw [processCars_frame pre (tickLights s) cid
      (fun x hx he => hpre (he ▸ hx))]
    exact hc
  have hsplit : tickP s (pre ++ cid :: post)
      = processCars (moveCar (processCars (tickLights s) pre) cid).1 post := by
    unfold tickP processCars
    rw [List.foldl_append]
    rfl
  have hpostframe : findCarData (tickP s (pre ++ cid :: post)).cars cid
      = findCarData (moveCar (processCars (tickLights s) pre) cid).1.cars cid := by
    rw [hsplit]
    exact processCars_frame post _ cid (fun x hx he => hpost (he ▸ hx))
  have hw := moveCar_wait (processCars (tickLights s) pre) cid c hcmid hwc
  refine ⟨?_, ?_, ?_⟩
  · intro ht
    rw [hpostframe]
    exact hw.1 ht
  · intro hf hne
    rw [hpostframe]
    exact hw.2.1 hf hne
  · intro hf he
    rw [hpostframe, hw.2.2 hf he, hcmid]
    rfl

/-- Executable check of `WellConnected`. -/
def wellConnectedB (s : SimState) : Bool :=
  s.intersections.all (fun i =>
    [Direction.north, .south, .east, .west].all (fun d =>
      match i.connectedRoads.get d with
      | some rid => (lookupRoad s rid).isSome
      | none => true))

lemma wellConnectedB_spec (s : SimState) (h : wellConnectedB s = true) :
    WellConnected s := by
  intro i hi d rid hcr
  have h1 := List.all_eq_true.mp h i hi
  have h2 := List.all_eq_true.mp h1 d (by cases d <;> simp)
  rw [hcr] at h2
  exact h2

def c6CarW1 : Car := (findCarData orphanRunStart.cars "w1").getD (mkCar "d" (0, 0) .north)

/-- Witness for the wait-counter theorem: the first westbound car moves
on tick one of the orphan run, and its counter is 0 after the tick. -/
theorem c6_wait_counter_witness :
    ("w1" ∉ ([] : List String) ∧ "w1" ∉ ["w2", "w3", "w4", "w5", "x"] ∧
      findCarData orphanRunStart.cars "w1" = some c6CarW1 ∧
      WellConnected (processCars (tickLights orphanRunStart) [])) ∧
    ((moveCar (processCars (tickLights orphanRunStart) []) "w1").2 = true →
      (findCarData
        (tickP orphanRunStart ([] ++ "w1" :: ["w2", "w3", "w4", "w5", "x"])).cars
        "w1").map Car.waitTime = some 0) :=
  ⟨⟨by decide, by decide, rfl, wellConnectedB_spec _ (by rfl)⟩,
    (c6_wait_counter orphanRunStart [] ["w2", "w3", "w4", "w5", "x"] "w1" c6CarW1
      (by decide) (by decide) rfl (wellConnectedB_spec _ (by rfl))).1⟩
